import Mathlib

set_option maxRecDepth 8000

namespace AIVTuber

/-
Shallow embedding of the AI-VTuber pipeline (Leehyunbin0131/Test_111).
Strings are modelled as `List Char`; Python `re` splits used by the code are
embedded as single-pass scanners with the same output shape as `re.split`
with a capture group (text tokens alternating with separator tokens).
-/

/-- Python `\s` (ASCII portion), as used by `re.split(r'(\s+)')` on the texts
in this repository. -/
def pyIsSpace (c : Char) : Bool :=
  c = ' ' || c = '\t' || c = '\n' || c = '\r' || c = '\x0b' || c = '\x0c'

/-- Sentence-terminal punctuation class `[.!?。]` from
`AIVTubePipeline.split_text_into_chunks`. -/
def isSentPunct (c : Char) : Bool :=
  c = '.' || c = '!' || c = '?' || c = '。'

/-- Python `str.strip`: drop leading and trailing whitespace. -/
def pyStrip (s : List Char) : List Char :=
  ((s.dropWhile pyIsSpace).reverse.dropWhile pyIsSpace).reverse

/-- Scanner phase for the embedding of `re.split(r'([.!?。]+\s*)', text)`. -/
inductive SentMode
  | text
  | punct
  | blank
deriving DecidableEq, Repr

/-- One-pass scanner producing the token list of
`re.split(r'([.!?。]+\s*)', text)`: text tokens at even positions,
separator tokens (a punctuation run plus trailing whitespace) at odd
positions, with empty text tokens where two separators are adjacent or the
string starts or ends with a separator. `acc` holds the current token
reversed. -/
def sentAux : List Char → SentMode → List Char → List (List Char)
  | [], .text, acc => [acc.reverse]
  | [], _, acc => [acc.reverse, []]
  | c :: rest, .text, acc =>
      if isSentPunct c then acc.reverse :: sentAux rest .punct [c]
      else sentAux rest .text (c :: acc)
  | c :: rest, .punct, acc =>
      if isSentPunct c then sentAux rest .punct (c :: acc)
      else if pyIsSpace c then sentAux rest .blank (c :: acc)
      else acc.reverse :: sentAux rest .text [c]
  | c :: rest, .blank, acc =>
      if pyIsSpace c then sentAux rest .blank (c :: acc)
      else if isSentPunct c then acc.reverse :: [] :: sentAux rest .punct [c]
      else acc.reverse :: sentAux rest .text [c]

/-- Embedding of `re.split(r'([.!?。]+\s*)', text)`. -/
def pySentSplit (s : List Char) : List (List Char) :=
  sentAux s .text []

/-- One-pass scanner producing the token list of `re.split(r'(\s+)', s)`:
word tokens alternating with whitespace-run tokens. The `Bool` says whether
the current token is a whitespace run. -/
def wordAux : List Char → Bool → List Char → List (List Char)
  | [], false, acc => [acc.reverse]
  | [], true, acc => [acc.reverse, []]
  | c :: rest, false, acc =>
      if pyIsSpace c then acc.reverse :: wordAux rest true [c]
      else wordAux rest false (c :: acc)
  | c :: rest, true, acc =>
      if pyIsSpace c then wordAux rest true (c :: acc)
      else acc.reverse :: wordAux rest false [c]

/-- Embedding of `re.split(r'(\s+)', s)`. -/
def pyWordSplit (s : List Char) : List (List Char) :=
  wordAux s false []

/-- The pairing `for i in range(0, len(sentences), 2)` with
`ending = sentences[i+1] if i+1 < len(sentences) else ""`. -/
def pairUp : List (List Char) → List (List Char × List Char)
  | [] => []
  | [s] => [(s, [])]
  | s :: e :: rest => (s, e) :: pairUp rest

/-- One step of the inner word-packing loop of `split_text_into_chunks`
(state: flushed chunks so far, current `sub_chunk`). -/
def wordPackStep (maxSize : Nat) (st : List (List Char) × List Char)
    (w : List Char) : List (List Char) × List Char :=
  if st.2.length + w.length ≤ maxSize then (st.1, st.2 ++ w)
  else if st.2 = [] then (st.1, w)
  else (st.1 ++ [st.2], w)

/-- State of the sentence-packing loop: emitted chunks and the running
`current_chunk`. -/
structure SegState where
  chunks : List (List Char)
  current : List Char
deriving DecidableEq, Repr

/-- One step of the sentence loop of `split_text_into_chunks`, processing one
(sentence, ending) pair. -/
def sentStep (maxSize : Nat) (st : SegState) (p : List Char × List Char) :
    SegState :=
  let se := p.1 ++ p.2
  if st.current.length + se.length ≤ maxSize then
    ⟨st.chunks, st.current ++ se⟩
  else
    let chunks1 := if st.current = [] then st.chunks else st.chunks ++ [st.current]
    if maxSize < se.length then
      let r := (pyWordSplit se).foldl (wordPackStep maxSize) ([], [])
      ⟨chunks1 ++ r.1, r.2⟩
    else
      ⟨chunks1, se⟩

/-- Embedding of `AIVTubePipeline.split_text_into_chunks(text, max_size)`
(src/core/pipeline.py lines 179-237). -/
def split_text_into_chunks (text : List Char) (maxSize : Nat) :
    List (List Char) :=
  if text.length ≤ maxSize then [text]
  else
    let st := (pairUp (pySentSplit text)).foldl (sentStep maxSize) ⟨[], []⟩
    if st.current = [] then st.chunks else st.chunks ++ [st.current]

/-- The word-packing fold keeps every flushed chunk and the running
`sub_chunk` within `m` characters, provided every incoming token is within
`m` characters. -/
lemma wordPack_inv (m : Nat) (ws : List (List Char))
    (st : List (List Char) × List Char)
    (hws : ∀ w ∈ ws, w.length ≤ m)
    (hst1 : ∀ c ∈ st.1, c.length ≤ m) (hst2 : st.2.length ≤ m) :
    (∀ c ∈ (ws.foldl (wordPackStep m) st).1, c.length ≤ m) ∧
      (ws.foldl (wordPackStep m) st).2.length ≤ m := by
  induction ws generalizing st with
  | nil => exact ⟨hst1, hst2⟩
  | cons w ws ih =>
    simp only [List.foldl_cons]
    have hw : w.length ≤ m := hws w (List.mem_cons_self _ _)
    have hws' : ∀ x ∈ ws, x.length ≤ m := fun x hx => hws x (List.mem_cons_of_mem _ hx)
    refine ih _ hws' ?_ ?_
    · unfold wordPackStep
      split
      · exact hst1
      · split
        · exact hst1
        · intro c hc
          rcases List.mem_append.mp hc with h | h
          · exact hst1 c h
          · simp only [List.mem_singleton] at h
            exact h ▸ hst2
    · unfold wordPackStep
      split
      · simpa using ‹st.2.length + w.length ≤ m›
      · split <;> exact hw

/-- One sentence-packing step keeps every emitted chunk and the running
`current_chunk` within `m` characters, provided every whitespace-delimited
token of the (sentence, ending) unit is within `m` characters. -/
lemma sentStep_inv (m : Nat) (st : SegState) (p : List Char × List Char)
    (hp : ∀ w ∈ pyWordSplit (p.1 ++ p.2), w.length ≤ m)
    (h1 : ∀ c ∈ st.chunks, c.length ≤ m) (h2 : st.current.length ≤ m) :
    (∀ c ∈ (sentStep m st p).chunks, c.length ≤ m) ∧
      (sentStep m st p).current.length ≤ m := by
  have hchunks1 : ∀ c ∈ (if st.current = [] then st.chunks
      else st.chunks ++ [st.current]), c.length ≤ m := by
    split
    · exact h1
    · intro c hc
      rcases List.mem_append.mp hc with h | h
      · exact h1 c h
      · simp only [List.mem_singleton] at h
        exact h ▸ h2
  simp only [sentStep]
  split
  · next h =>
    refine ⟨h1, ?_⟩
    simp only [List.length_append] at h ⊢
    omega
  · split
    · refine ⟨?_, (wordPack_inv m _ _ hp (by simp) (by simp)).2⟩
      intro c hc
      rcases List.mem_append.mp hc with h | h
      · exact hchunks1 c h
      · exact (wordPack_inv m _ _ hp (by simp) (by simp)).1 c h
    · next h h' =>
      refine ⟨hchunks1, ?_⟩
      show (p.1 ++ p.2).length ≤ m
      omega

/-- The sentence-packing fold keeps every emitted chunk and the running
`current_chunk` within `m` characters, provided every whitespace-delimited
token of every (sentence, ending) unit is within `m` characters. -/
lemma sentFold_inv (m : Nat) (ps : List (List Char × List Char)) (st : SegState)
    (hps : ∀ p ∈ ps, ∀ w ∈ pyWordSplit (p.1 ++ p.2), w.length ≤ m)
    (h1 : ∀ c ∈ st.chunks, c.length ≤ m) (h2 : st.current.length ≤ m) :
    (∀ c ∈ (ps.foldl (sentStep m) st).chunks, c.length ≤ m) ∧
      (ps.foldl (sentStep m) st).current.length ≤ m := by
  induction ps generalizing st with
  | nil => exact ⟨h1, h2⟩
  | cons p ps ih =>
    simp only [List.foldl_cons]
    have hp := hps p (List.mem_cons_self _ _)
    have hps' : ∀ q ∈ ps, ∀ w ∈ pyWordSplit (q.1 ++ q.2), w.length ≤ m :=
      fun q hq => hps q (List.mem_cons_of_mem _ hq)
    have hstep := sentStep_inv m st p hp h1 h2
    exact ih _ hps' hstep.1 hstep.2

/-- C1 counterexample: a text that is a single 41-character word, split with
`maxSize = 40`, comes back as one chunk of length 41, so not every chunk is
bounded by `maxSize`. -/
theorem c1_counterexample :
    ¬ (∀ c ∈ split_text_into_chunks (List.replicate 41 'a') 40,
        c.length ≤ 40) := by
  decide

/-- C1 (amended): for every text and `maxSize > 0`, every chunk produced by
`split_text_into_chunks` has length at most `maxSize`, provided every
whitespace-run-delimited token of each sentence unit (sentence plus its
terminator) has length at most `maxSize`; a single token longer than
`maxSize` is emitted as an oversized chunk. -/
theorem c1_chunks_bounded (text : List Char) (maxSize : Nat)
    (hpos : 0 < maxSize)
    (hw : ∀ p ∈ pairUp (pySentSplit text),
        ∀ w ∈ pyWordSplit (p.1 ++ p.2), w.length ≤ maxSize) :
    ∀ c ∈ split_text_into_chunks text maxSize, c.length ≤ maxSize := by
  intro c hc
  simp only [split_text_into_chunks] at hc
  split at hc
  · next h =>
    simp only [List.mem_singleton] at hc
    exact hc ▸ h
  · have hinv := sentFold_inv maxSize (pairUp (pySentSplit text)) ⟨[], []⟩ hw
      (by simp) (by simp)
    revert hc
    split
    · exact fun hc => hinv.1 c hc
    · intro hc
      rcases List.mem_append.mp hc with h | h
      · exact hinv.1 c h
      · simp only [List.mem_singleton] at h
        exact h ▸ hinv.2

/-- C1 witness: concrete instance of the amended bound at
`"ab cd. ef"` with `maxSize = 3`. -/
theorem c1_chunks_bounded_witness :
    0 < 3 ∧
      (∀ p ∈ pairUp (pySentSplit ("ab cd. ef".toList)),
        ∀ w ∈ pyWordSplit (p.1 ++ p.2), w.length ≤ 3) ∧
      (∀ c ∈ split_text_into_chunks ("ab cd. ef".toList) 3, c.length ≤ 3) :=
  ⟨by decide, by decide,
    c1_chunks_bounded ("ab cd. ef".toList) 3 (by decide) (by decide)⟩

/- ===== DialogueSession: OllamaChat (src/llm/chat.py) ===== -/

/-- One conversation message (role, content). -/
structure ChatMsg where
  role : List Char
  content : List Char
deriving DecidableEq, Repr

/-- State of `OllamaChat`: bounded history deque plus the duplicate-message
cache (`_msg_cache`, a dict from normalized message to timestamp, in
insertion order). The md5 hash of the normalized message is modelled by the
normalized message itself. -/
structure OllamaChat where
  maxHistory : Nat
  history : List ChatMsg
  msgCache : List (List Char × Nat)
  msgCacheMaxlen : Nat
deriving DecidableEq, Repr

/-- `collections.deque(maxlen=n).append`: drops from the front when full. -/
def dequeAppend (maxlen : Nat) (l : List α) (a : α) : List α :=
  let l' := l ++ [a]
  if maxlen < l'.length then l'.drop (l'.length - maxlen) else l'

/-- Embedding of `OllamaChat._trim_msg_cache`: when the cache exceeds its
maximum length, the oldest (smallest-timestamp) entries are deleted until
`maxlen` remain; deletion keeps the dict order of the remaining entries.
Python `sorted` is stable, as is `mergeSort`. -/
def trimMsgCache (maxlen : Nat) (cache : List (List Char × Nat)) :
    List (List Char × Nat) :=
  if maxlen < cache.length then
    let removed := ((cache.mergeSort (fun a b => a.2 ≤ b.2)).take
      (cache.length - maxlen)).map Prod.fst
    cache.filter (fun e => ¬ removed.contains e.1)
  else cache

/-- Embedding of `OllamaChat.add_user_message(message)` (src/llm/chat.py
lines 97-126): blank messages are rejected; duplicates of a recent
normalized message are rejected; otherwise the message is appended to the
history deque and recorded in the duplicate cache. -/
def add_user_message (c : OllamaChat) (msg : List Char) (now : Nat) :
    Bool × OllamaChat :=
  if pyStrip msg = [] then (false, c)
  else
    let key := (pyStrip msg).map Char.toLower
    if (c.msgCache.map Prod.fst).contains key then (false, c)
    else
      (true, { c with
        history := dequeAppend c.maxHistory c.history ⟨"user".toList, msg⟩,
        msgCache := trimMsgCache c.msgCacheMaxlen (c.msgCache ++ [(key, now)]) })


/-- C10: for every message that is empty or whitespace-only,
`add_user_message` returns `False` and leaves the conversation history and
the duplicate-message cache unchanged. -/
theorem add_user_message_rejects_blank (c : OllamaChat) (msg : List Char)
    (now : Nat) (h : pyStrip msg = []) :
    add_user_message c msg now = (false, c) := by
  simp [add_user_message, h]

/-- C10 witness: the whitespace-only message `" \t"` is rejected and the
session state is returned unchanged. -/
theorem add_user_message_rejects_blank_witness :
    pyStrip (" \t".toList) = [] ∧
      add_user_message ⟨12, [], [], 10⟩ (" \t".toList) 5 = (false, ⟨12, [], [], 10⟩) :=
  ⟨by decide, add_user_message_rejects_blank _ _ _ (by decide)⟩

/- ===== UtteranceClassifier: SpeechClassifier (src/llm/classifier.py) ===== -/

/-- Normalized cache key (`text.strip().lower()`); the md5 hash of the
normalized text is modelled by the normalized text itself. -/
def normKey (t : List Char) : List Char :=
  (pyStrip t).map Char.toLower

/-- Classification cache entry list: an `OrderedDict` from key to
(result, timestamp), front = least recently inserted/refreshed. -/
abbrev ClsCache := List (List Char × Bool × Nat)

/-- State of `SpeechClassifier`. -/
structure SpeechClassifier where
  keywords : List (List Char)
  cacheSize : Nat
  cacheTtl : Nat
  cache : ClsCache
deriving DecidableEq, Repr

/-- Lookup of `self.cache[text_hash]`. -/
def findEntry (cache : ClsCache) (k : List Char) : Option (Bool × Nat) :=
  (cache.find? (fun e => e.1 = k)).map Prod.snd

/-- Embedding of `OrderedDict.move_to_end(key)`. -/
def moveToEnd (cache : ClsCache) (k : List Char) : ClsCache :=
  cache.filter (fun e => ¬ e.1 = k) ++ cache.filter (fun e => e.1 = k)

/-- Embedding of `del self.cache[key]`. -/
def eraseKey (cache : ClsCache) (k : List Char) : ClsCache :=
  cache.filter (fun e => ¬ e.1 = k)

/-- Embedding of `SpeechClassifier._check_cache` (src/llm/classifier.py
lines 79-102): on a hit the entry is moved to the end (LRU refresh); a
non-expired hit returns the cached result; an expired hit is deleted. -/
def checkCache (cache : ClsCache) (k : List Char) (now ttl : Nat) :
    Option Bool × ClsCache :=
  match findEntry cache k with
  | none => (none, cache)
  | some (r, ts) =>
      let moved := moveToEnd cache k
      if now - ts ≤ ttl then (some r, moved)
      else (none, eraseKey moved k)

/-- Embedding of `SpeechClassifier._update_cache` (src/llm/classifier.py
lines 104-118): when the cache is full the front (least recently
used) entry is popped (`popitem(last=False)`), then the new result is
stored; storing under an existing key updates it in place. -/
def updateCache (size : Nat) (cache : ClsCache) (k : List Char) (r : Bool)
    (now : Nat) : ClsCache :=
  let c1 := if size ≤ cache.length then cache.drop 1 else cache
  if (c1.map Prod.fst).any (fun x => x = k) then
    c1.map (fun e => if e.1 = k then (k, (r, now)) else e)
  else c1 ++ [(k, (r, now))]

/-- Starts-with check over character lists. -/
def startsWithChars : List Char → List Char → Bool
  | [], _ => true
  | _ :: _, [] => false
  | a :: xs, b :: ys => a = b && startsWithChars xs ys

/-- Substring search (Python `pattern in s` / an unanchored regex literal
match): the pattern occurs at some position of `s`. -/
def containsSub (pat s : List Char) : Bool :=
  match s with
  | [] => startsWithChars pat []
  | c :: rest => startsWithChars pat (c :: rest) || containsSub pat rest

/-- Case-insensitive keyword search: embedding of
`self.keyword_pattern.search(text)`, the `re.IGNORECASE` alternation of the
escaped configured keywords. -/
def kwSearch (kws : List (List Char)) (t : List Char) : Bool :=
  kws.any (fun kw => containsSub (kw.map Char.toLower) (t.map Char.toLower))

/-- Embedding of the question-pattern search
`re.search(r'\?$|뭐지\?|뭐야\?|왜\?|언제\?|어디\?|누구\?', text)`. -/
def questionSearch (t : List Char) : Bool :=
  decide (t.getLast? = some '?')
    || containsSub "뭐지?".toList t || containsSub "뭐야?".toList t
    || containsSub "왜?".toList t || containsSub "언제?".toList t
    || containsSub "어디?".toList t || containsSub "누구?".toList t

/-- Embedding of `SpeechClassifier.is_directed_to_ai(text)`
(src/llm/classifier.py lines 120-187). `llmResp` is the outcome of the
external conversational-service fallback (`none` = communication failure,
`some b` = normalized boolean reply). Returns (classification, new
classifier state, whether the external fallback was invoked). -/
def is_directed_to_ai (cl : SpeechClassifier) (text : List Char) (now : Nat)
    (llmResp : Option Bool) : Bool × SpeechClassifier × Bool :=
  if pyStrip text = [] then (false, cl, false)
  else
    let k := normKey text
    match checkCache cl.cache k now cl.cacheTtl with
    | (some r, cache1) => (r, { cl with cache := cache1 }, false)
    | (none, cache1) =>
      if kwSearch cl.keywords text then
        (true, { cl with cache := updateCache cl.cacheSize cache1 k true now },
          false)
      else if questionSearch text && decide (text.length < 15) then
        (true, { cl with cache := updateCache cl.cacheSize cache1 k true now },
          false)
      else
        match llmResp with
        | some b =>
            (b, { cl with cache := updateCache cl.cacheSize cache1 k b now },
              true)
        | none => (false, { cl with cache := cache1 }, true)

/-- `move_to_end` does not change the number of entries. -/
lemma moveToEnd_length (cache : ClsCache) (k : List Char) :
    (moveToEnd cache k).length = cache.length := by
  unfold moveToEnd
  induction cache with
  | nil => rfl
  | cons e es ih =>
    simp only [List.filter_cons, List.length_append, decide_not] at ih ⊢
    by_cases h : e.1 = k <;> simp [h] <;> omega

/-- `_check_cache` never grows the cache. -/
lemma checkCache_length_le (cache : ClsCache) (k : List Char) (now ttl : Nat) :
    (checkCache cache k now ttl).2.length ≤ cache.length := by
  unfold checkCache
  match h : findEntry cache k with
  | none => simp
  | some (r, ts) =>
    simp only
    split
    · exact le_of_eq (moveToEnd_length cache k)
    · calc (eraseKey (moveToEnd cache k) k).length
          ≤ (moveToEnd cache k).length := List.length_filter_le _ _
        _ = cache.length := moveToEnd_length cache k

/-- `_update_cache` keeps the cache within the configured size. -/
lemma updateCache_length (size : Nat) (cache : ClsCache) (k : List Char)
    (r : Bool) (now : Nat) (hsz : 0 < size) (h : cache.length ≤ size) :
    (updateCache size cache k r now).length ≤ size := by
  rcases le_or_lt size cache.length with hfull | hnotfull
  · simp only [updateCache, if_pos hfull]
    split
    · rw [List.length_map, List.length_drop]
      omega
    · rw [List.length_append, List.length_drop]
      simp only [List.length_cons, List.length_nil]
      omega
  · simp only [updateCache, if_neg (not_le.mpr hnotfull)]
    split
    · rw [List.length_map]
      omega
    · rw [List.length_append]
      simp only [List.length_cons, List.length_nil]
      omega

/-- Setting a present key in place rewrites exactly that key's value. -/
lemma findEntry_setValue (c1 : ClsCache) (k : List Char) (r : Bool)
    (now : Nat) :
    findEntry (c1.map (fun e => if e.1 = k then (k, (r, now)) else e)) k
      = if (c1.map Prod.fst).any (fun x => x = k) then some (r, now)
        else none := by
  induction c1 with
  | nil => simp [findEntry]
  | cons e es ih =>
    by_cases h : e.1 = k
    · simp [findEntry, List.find?, h]
    · have h' : (decide (e.1 = k)) = false := by simp [h]
      simp only [List.map_cons, if_neg h, List.any_cons, h', Bool.false_or]
      unfold findEntry at ih ⊢
      rw [List.find?_cons_of_neg _ (by simp [h])]
      exact ih

/-- Appending a fresh key makes it findable with the appended value. -/
lemma findEntry_append_self (c1 : ClsCache) (k : List Char) (r : Bool)
    (now : Nat) (h : findEntry c1 k = none) :
    findEntry (c1 ++ [(k, (r, now))]) k = some (r, now) := by
  induction c1 with
  | nil => simp [findEntry, List.find?]
  | cons e es ih =>
    by_cases hpe : e.1 = k
    · exfalso
      unfold findEntry at h
      rw [List.find?_cons_of_pos _ (by simp [hpe])] at h
      simp at h
    · unfold findEntry at h ih ⊢
      rw [List.find?_cons_of_neg _ (by simp [hpe])] at h
      rw [List.cons_append, List.find?_cons_of_neg _ (by simp [hpe])]
      exact ih h

/-- A key absent from the key list is not found. -/
lemma findEntry_eq_none (c1 : ClsCache) (k : List Char)
    (h : (c1.map Prod.fst).any (fun x => x = k) = false) :
    findEntry c1 k = none := by
  induction c1 with
  | nil => rfl
  | cons e es ih =>
    simp only [List.map_cons, List.any_cons, Bool.or_eq_false_iff] at h
    simp only [findEntry, List.find?]
    rw [show (decide (e.1 = k)) = false from h.1]
    exact ih h.2

/-- After `_update_cache` stored (k, r, now), looking k up finds exactly
that value. -/
lemma findEntry_updateCache_self (size : Nat) (cache : ClsCache)
    (k : List Char) (r : Bool) (now : Nat) :
    findEntry (updateCache size cache k r now) k = some (r, now) := by
  have main : ∀ c1 : ClsCache,
      findEntry (if (c1.map Prod.fst).any (fun x => x = k) then
          c1.map (fun e => if e.1 = k then (k, (r, now)) else e)
        else c1 ++ [(k, (r, now))]) k = some (r, now) := by
    intro c1
    split
    · next hany => rw [findEntry_setValue, if_pos hany]
    · next hany =>
      exact findEntry_append_self _ _ _ _
        (findEntry_eq_none _ _ (Bool.eq_false_iff.mpr hany))
  simp only [updateCache]
  rcases le_or_lt size cache.length with hle | hlt
  · simp only [if_pos hle]
    exact main _
  · simp only [if_neg (not_le.mpr hlt)]
    exact main _

/-- When the cache is exactly full and the key is fresh, `_update_cache`
evicts precisely the front (least recently used) entry and appends the new
entry at the back. -/
lemma updateCache_evicts_front (size : Nat) (cache : ClsCache)
    (k : List Char) (r : Bool) (now : Nat) (hfull : cache.length = size)
    (hfresh : ∀ e ∈ cache, ¬ e.1 = k) :
    updateCache size cache k r now = cache.drop 1 ++ [(k, (r, now))] := by
  have hle : size ≤ cache.length := le_of_eq hfull.symm
  simp only [updateCache, if_pos hle]
  have hany : ((cache.drop 1).map Prod.fst).any (fun x => x = k) = false := by
    rw [Bool.eq_false_iff]
    intro hcon
    rw [List.any_eq_true] at hcon
    obtain ⟨x, hx, hpx⟩ := hcon
    obtain ⟨e, he, hfst⟩ := List.mem_map.mp hx
    have hne := hfresh e (List.mem_of_mem_drop he)
    simp only [decide_eq_true_eq] at hpx
    exact hne (hfst.trans hpx)
  have hcond : ¬ ((((cache.drop 1).map Prod.fst).any (fun x => x = k)) = true) := by
    rw [hany]
    simp
  rw [if_neg hcond]

/-- On a non-expired hit, `_check_cache` returns the cached result and
refreshes the entry's recency by moving it to the end. -/
lemma checkCache_hit (cache : ClsCache) (k : List Char) (r : Bool)
    (ts now ttl : Nat) (hfind : findEntry cache k = some (r, ts))
    (hfresh : now - ts ≤ ttl) :
    checkCache cache k now ttl = (some r, moveToEnd cache k) := by
  simp [checkCache, hfind, hfresh]

/-- C7: the classification cache holds at most the configured maximum
number of entries after every classify call; when the cache is exactly
full, inserting a fresh key evicts precisely the front (least recently
used) entry; and a non-expired hit refreshes the hit entry's recency by
moving it to the end of the order. -/
theorem classifier_cache_bounded_lru :
    (∀ (cl : SpeechClassifier) (text : List Char) (now : Nat)
        (llm : Option Bool), 0 < cl.cacheSize →
        cl.cache.length ≤ cl.cacheSize →
        (is_directed_to_ai cl text now llm).2.1.cache.length ≤ cl.cacheSize) ∧
      (∀ (size : Nat) (cache : ClsCache) (k : List Char) (r : Bool)
          (now : Nat), cache.length = size → (∀ e ∈ cache, ¬ e.1 = k) →
          updateCache size cache k r now = cache.drop 1 ++ [(k, (r, now))]) ∧
      (∀ (cache : ClsCache) (k : List Char) (r : Bool) (ts now ttl : Nat),
          findEntry cache k = some (r, ts) → now - ts ≤ ttl →
          checkCache cache k now ttl = (some r, moveToEnd cache k)) := by
  refine ⟨?_, updateCache_evicts_front, checkCache_hit⟩
  intro cl text now llm hsz hlen
  by_cases hne : pyStrip text = []
  · have hres : (is_directed_to_ai cl text now llm).2.1.cache = cl.cache := by
      simp [is_directed_to_ai, hne]
    rw [hres]
    exact hlen
  obtain ⟨o, cache1, hcc⟩ : ∃ o cache1,
      checkCache cl.cache (normKey text) now cl.cacheTtl = (o, cache1) :=
    ⟨_, _, rfl⟩
  have hc1 : cache1.length ≤ cl.cacheSize := by
    have h := checkCache_length_le cl.cache (normKey text) now cl.cacheTtl
    rw [hcc] at h
    exact le_trans h hlen
  cases o with
  | some r =>
    have hres : (is_directed_to_ai cl text now llm).2.1.cache = cache1 := by
      simp [is_directed_to_ai, hne, hcc]
    rw [hres]
    exact hc1
  | none =>
    by_cases hkw : kwSearch cl.keywords text = true
    · have hres : (is_directed_to_ai cl text now llm).2.1.cache
          = updateCache cl.cacheSize cache1 (normKey text) true now := by
        simp [is_directed_to_ai, hne, hcc, hkw]
      rw [hres]
      exact updateCache_length _ _ _ _ _ hsz hc1
    · have hkw' : kwSearch cl.keywords text = false := Bool.eq_false_iff.mpr hkw
      by_cases hq : (questionSearch text && decide (text.length < 15)) = true
      · have hres : (is_directed_to_ai cl text now llm).2.1.cache
            = updateCache cl.cacheSize cache1 (normKey text) true now := by
          simp [is_directed_to_ai, hne, hcc, hkw', hq]
        rw [hres]
        exact updateCache_length _ _ _ _ _ hsz hc1
      · have hq' : (questionSearch text && decide (text.length < 15)) = false :=
          Bool.eq_false_iff.mpr hq
        cases llm with
        | some b =>
          have hres : (is_directed_to_ai cl text now (some b)).2.1.cache
              = updateCache cl.cacheSize cache1 (normKey text) b now := by
            simp [is_directed_to_ai, hne, hcc, hkw', hq']
          rw [hres]
          exact updateCache_length _ _ _ _ _ hsz hc1
        | none =>
          have hres : (is_directed_to_ai cl text now none).2.1.cache = cache1 := by
            simp [is_directed_to_ai, hne, hcc, hkw', hq']
          rw [hres]
          exact hc1

/-- C7 witness: concrete instances of the three parts of the cache
invariant. -/
theorem classifier_cache_bounded_lru_witness :
    ((is_directed_to_ai ⟨[], 1, 10, [("a".toList, (true, 0))]⟩ "hi".toList 0
        (some true)).2.1.cache.length ≤ 1) ∧
      (updateCache 1 [("a".toList, (true, 0))] "b".toList true 3
        = [("a".toList, (true, 0))].drop 1 ++ [("b".toList, (true, 3))]) ∧
      (checkCache [("a".toList, (true, 0))] "a".toList 1 5
        = (some true, moveToEnd [("a".toList, (true, 0))] "a".toList)) :=
  ⟨classifier_cache_bounded_lru.1 _ _ 0 _ (by decide) (by decide),
    classifier_cache_bounded_lru.2.1 1 _ _ true 3 (by decide) (by decide),
    classifier_cache_bounded_lru.2.2 _ _ true 0 1 5 (by decide) (by decide)⟩

/-- C8: a classify call on text whose normalized key has a cache entry
still within its TTL does not invoke the external fallback; and once the
TTL of the entry stored by a successful fallback classification has
elapsed, a later classify call on the same text invokes the fallback
again. -/
theorem classifier_ttl_fallback :
    (∀ (cl : SpeechClassifier) (text : List Char) (now : Nat)
        (llm : Option Bool) (r : Bool) (ts : Nat),
        ¬ pyStrip text = [] →
        findEntry cl.cache (normKey text) = some (r, ts) →
        now - ts ≤ cl.cacheTtl →
        (is_directed_to_ai cl text now llm).2.2 = false) ∧
      (∀ (cl : SpeechClassifier) (text : List Char) (now1 now2 : Nat)
          (b : Bool) (llm2 : Option Bool),
          (is_directed_to_ai cl text now1 (some b)).2.2 = true →
          cl.cacheTtl < now2 - now1 →
          (is_directed_to_ai (is_directed_to_ai cl text now1 (some b)).2.1
            text now2 llm2).2.2 = true) := by
  constructor
  · intro cl text now llm r ts hne hfind hfresh
    simp only [is_directed_to_ai, if_neg hne]
    rw [checkCache_hit _ _ _ _ _ _ hfind hfresh]
  · intro cl text now1 now2 b llm2 h1 httl
    by_cases hne : pyStrip text = []
    · simp [is_directed_to_ai, hne] at h1
    obtain ⟨o, cache1, hcc⟩ : ∃ o cache1,
        checkCache cl.cache (normKey text) now1 cl.cacheTtl = (o, cache1) :=
      ⟨_, _, rfl⟩
    cases o with
    | some r =>
      exfalso
      simp [is_directed_to_ai, hne, hcc] at h1
    | none =>
      by_cases hkw : kwSearch cl.keywords text = true
      · exfalso
        simp [is_directed_to_ai, hne, hcc, hkw] at h1
      · have hkw' : kwSearch cl.keywords text = false := Bool.eq_false_iff.mpr hkw
        by_cases hq : (questionSearch text && decide (text.length < 15)) = true
        · exfalso
          simp [is_directed_to_ai, hne, hcc, hkw', hq] at h1
        · have hq' : (questionSearch text && decide (text.length < 15)) = false :=
            Bool.eq_false_iff.mpr hq
          have hstate : (is_directed_to_ai cl text now1 (some b)).2.1
              = { cl with cache :=
                    updateCache cl.cacheSize cache1 (normKey text) b now1 } := by
            simp [is_directed_to_ai, hne, hcc, hkw', hq']
          rw [hstate]
          have hval := findEntry_updateCache_self cl.cacheSize cache1
            (normKey text) b now1
          have hexp : ¬ (now2 - now1 ≤ cl.cacheTtl) := by omega
          simp [is_directed_to_ai, hne, checkCache, hval, hexp, hkw', hq']
          cases llm2 <;> simp

/-- C8 witness: a repeat of `"hi"` 3 time units after it was cached (TTL 10)
does not invoke the fallback; a repeat of `"hello stream"` 20 time units
after a fallback classification (TTL 10) invokes the fallback again. -/
theorem classifier_ttl_fallback_witness :
    ((is_directed_to_ai ⟨[], 5, 10, [("hi".toList, (true, 0))]⟩ "hi".toList 3
        none).2.2 = false) ∧
      ((is_directed_to_ai
          (is_directed_to_ai ⟨[], 5, 10, []⟩ "hello stream".toList 0
            (some false)).2.1
          "hello stream".toList 20 (some true)).2.2 = true) :=
  ⟨classifier_ttl_fallback.1 _ _ 3 none true 0 (by decide) (by decide)
      (by decide),
    classifier_ttl_fallback.2 _ _ 0 20 false (some true) (by decide)
      (by decide)⟩

/- ===== AvatarControlClient: VTubeStudioAPI (src/vts/api_helper.py) ===== -/

/-- Connection state machine of `VTubeStudioAPI` (`ConnectionState`). -/
inductive ConnState
  | disconnected
  | connecting
  | connected
  | authenticating
  | authenticated
deriving DecidableEq, Repr

/-- `RECONNECT_MAX_ATTEMPTS` from `VTubeStudioAPI`. -/
def RECONNECT_MAX_ATTEMPTS : Nat := 5

/-- Client state of `VTubeStudioAPI` relevant to connection and
authentication. `wsOpen` models `self.ws is not None`. -/
structure VTSClient where
  pluginName : List Char
  pluginDeveloper : List Char
  autoReconnect : Bool
  stopRequested : Bool
  state : ConnState
  token : Option (List Char)
  reconnectAttempts : Nat
  wsOpen : Bool
deriving DecidableEq, Repr

/-- Environment oracle for one connect/authenticate pass over a clean
channel, i.e. one on which no send raises `WebSocketException` mid-pass:
outcome of `create_connection`; outcome of an `AuthenticationRequest`
carrying a given token (`none` = timeout or malformed response — caught
and treated as failure by the code — and `some b` = the server's
`authenticated` flag); outcome of an `AuthenticationTokenRequest`
(`none` = timeout or missing field, `some t` = fresh token). The
`WebSocketException` path of `_send_request`, whose handler re-enters
`connect`, is modelled separately by `NetEnv`, `sendE` and `connectE`
below. -/
structure VTSOracle where
  connectOk : Bool
  authResp : List Char → Option Bool
  tokenResp : Option (List Char)

/-- Observable events of the client: state assignments, the
`create_connection` call, protocol requests, token persistence and the
backoff wait. -/
inductive VTSEvent
  | enterState (s : ConnState)
  | wsConnectAttempt
  | tokenRequest
  | authRequest (tok : List Char)
  | saveToken (name dev tok : List Char)
  | reconnectWait (attempt : Nat)
deriving DecidableEq, Repr

/-- The sequence of states assigned during a trace. -/
def stateSeq (evs : List VTSEvent) : List ConnState :=
  evs.filterMap (fun e => match e with
    | .enterState s => some s
    | _ => none)

/-- Embedding of `VTubeStudioAPI._authenticate_with_token` (src/vts/
api_helper.py lines 199-228) over a clean channel (the send does not
raise `WebSocketException`): sends an `AuthenticationRequest`; on an
authenticated reply moves to `AUTHENTICATED`; a timeout or rejection
returns `False` with the state unchanged. The raising send, whose
`_handle_disconnection` re-enters `connect` before the `except` here
catches the `VTSError`, is modelled by `authWithTokenE` below. -/
def authenticateWithToken (c : VTSClient) (o : VTSOracle) (tok : List Char) :
    Bool × VTSClient × List VTSEvent :=
  match o.authResp tok with
  | some true => (true, { c with state := .authenticated },
      [.authRequest tok, .enterState .authenticated])
  | some false => (false, c, [.authRequest tok])
  | none => (false, c, [.authRequest tok])

/-- The fresh-token tail of `VTubeStudioAPI._authenticate` over a clean
channel (the `AuthenticationTokenRequest` send does not raise
`WebSocketException`): request a new token; on success authenticate with
it, store it on the client and persist it keyed by the plugin identity;
on any failure fall back to `CONNECTED` and return `False`. The raising
send is modelled by `freshTokenFlowE` below. -/
def freshTokenFlow (c : VTSClient) (o : VTSOracle) (ev : List VTSEvent) :
    Bool × VTSClient × List VTSEvent :=
  match o.tokenResp with
  | some t =>
    let r := authenticateWithToken c o t
    if r.1 then
      (true, { r.2.1 with token := some t },
        ev ++ [VTSEvent.tokenRequest] ++ r.2.2
          ++ [VTSEvent.saveToken c.pluginName c.pluginDeveloper t])
    else
      (false, { r.2.1 with state := .connected },
        ev ++ [VTSEvent.tokenRequest] ++ r.2.2
          ++ [VTSEvent.enterState .connected])
  | none =>
    (false, { c with state := .connected },
      ev ++ [VTSEvent.tokenRequest, VTSEvent.enterState .connected])

/-- Embedding of `VTubeStudioAPI._authenticate` (src/vts/api_helper.py
lines 147-197): requires `CONNECTED`; enters `AUTHENTICATING`; first tries
the stored token; if that fails, clears it and runs the fresh-token flow. -/
def authenticate (c : VTSClient) (o : VTSOracle) :
    Bool × VTSClient × List VTSEvent :=
  if c.state ≠ ConnState.connected then (false, c, [])
  else
    let c0 : VTSClient := { c with state := .authenticating }
    let ev0 := [VTSEvent.enterState .authenticating]
    match c.token with
    | some t =>
      let r := authenticateWithToken c0 o t
      if r.1 then (true, r.2.1, ev0 ++ r.2.2)
      else freshTokenFlow { r.2.1 with token := none } o (ev0 ++ r.2.2)
    | none => freshTokenFlow c0 o ev0

/-- Embedding of `VTubeStudioAPI.connect` (src/vts/api_helper.py lines
108-145): already-authenticated clients return immediately; from
`DISCONNECTED` the client enters `CONNECTING`, attempts the WebSocket
connection (resetting the attempt counter on success), and then
authenticates from `CONNECTED`; any other state returns `False`. -/
def connectFn (c : VTSClient) (o : VTSOracle) :
    Bool × VTSClient × List VTSEvent :=
  if c.state = ConnState.authenticated then (true, c, [])
  else if c.state = ConnState.disconnected then
    if o.connectOk then
      let c1 : VTSClient :=
        { c with state := .connected, wsOpen := true, reconnectAttempts := 0 }
      let r := authenticate c1 o
      (r.1, r.2.1,
        [VTSEvent.enterState .connecting, VTSEvent.wsConnectAttempt,
          VTSEvent.enterState .connected] ++ r.2.2)
    else
      (false, { c with state := .disconnected, wsOpen := false },
        [VTSEvent.enterState .connecting, VTSEvent.wsConnectAttempt,
          VTSEvent.enterState .disconnected])
  else if c.state = ConnState.connected then
    authenticate c o
  else (false, c, [])

/-- Embedding of `VTubeStudioAPI.ensure_connected` (src/vts/api_helper.py
lines 535-549). -/
def ensure_connected (c : VTSClient) (o : VTSOracle) :
    Bool × VTSClient × List VTSEvent :=
  if c.state = ConnState.authenticated then (true, c, [])
  else if c.state = ConnState.disconnected then connectFn c o
  else (false, c, [])

/-- Embedding of `VTubeStudioAPI._handle_disconnection` (src/vts/
api_helper.py lines 409-438): the state drops to `DISCONNECTED`; with
auto-reconnect on and no stop requested the attempt counter is incremented
and, while it has not exceeded `RECONNECT_MAX_ATTEMPTS`, one backoff wait
and one reconnect pass are performed. -/
def handle_disconnection (c : VTSClient) (o : VTSOracle) :
    VTSClient × List VTSEvent :=
  let c0 : VTSClient := { c with state := .disconnected, wsOpen := false }
  let ev0 := [VTSEvent.enterState .disconnected]
  if c.autoReconnect && !c.stopRequested then
    let c1 : VTSClient := { c0 with reconnectAttempts := c0.reconnectAttempts + 1 }
    if c1.reconnectAttempts ≤ RECONNECT_MAX_ATTEMPTS then
      let r := connectFn c1 o
      (r.2.1, ev0 ++ [VTSEvent.reconnectWait c1.reconnectAttempts] ++ r.2.2)
    else (c1, ev0)
  else (c0, ev0)

/-- Iterated disconnection handling (one invocation per disconnection
event). -/
def iterateHandle : Nat → VTSClient → VTSOracle → VTSClient
  | 0, c, _ => c
  | n + 1, c, o => iterateHandle n (handle_disconnection c o).1 o

/-- Recognizer for the `create_connection` attempt event. -/
def isWsAttempt : VTSEvent → Bool
  | .wsConnectAttempt => true
  | _ => false

/-- Recognizer for the `AuthenticationTokenRequest` event. -/
def isTokenReq : VTSEvent → Bool
  | .tokenRequest => true
  | _ => false

lemma stateSeq_append (a b : List VTSEvent) :
    stateSeq (a ++ b) = stateSeq a ++ stateSeq b := by
  simp [stateSeq, List.filterMap_append]

/-- The client right after a successful WebSocket connection inside
`connect`: `CONNECTED`, socket open, attempt counter reset. -/
def connectedClient (c : VTSClient) : VTSClient :=
  { c with state := .connected, wsOpen := true, reconnectAttempts := 0 }

/-- Concrete disconnected client used by witnesses. -/
def c4client : VTSClient :=
  ⟨"p".toList, "d".toList, true, false, ConnState.disconnected,
    some "tok".toList, 0, false⟩

/-- Concrete oracle accepting every token, used by witnesses. -/
def c4oracle : VTSOracle :=
  ⟨true, fun _ => some true, none⟩

/-- Once the attempt budget is exhausted, a further disconnection event
performs no reconnection attempt and leaves the client `DISCONNECTED`. -/
lemma handle_fail_fast (c : VTSClient) (o : VTSOracle)
    (h5 : RECONNECT_MAX_ATTEMPTS ≤ c.reconnectAttempts) :
    (handle_disconnection c o).2.countP (fun e => isWsAttempt e) = 0 ∧
      (handle_disconnection c o).1.state = ConnState.disconnected := by
  have hgt : ¬ (c.reconnectAttempts + 1 ≤ RECONNECT_MAX_ATTEMPTS) := by
    unfold RECONNECT_MAX_ATTEMPTS at h5 ⊢
    omega
  by_cases hb : (c.autoReconnect && !c.stopRequested) = true
  · simp [handle_disconnection, hb, hgt, isWsAttempt, stateSeq]
  · simp [handle_disconnection, hb, isWsAttempt, stateSeq]

/-- A failed reconnection pass increments the attempt counter and changes
nothing else besides dropping the connection state. -/
lemma handle_disconnection_fail (c : VTSClient) (o : VTSOracle)
    (ha : c.autoReconnect = true) (hs : c.stopRequested = false)
    (hc : o.connectOk = false) :
    (handle_disconnection c o).1
      = { c with
          state := .disconnected
          wsOpen := false
          reconnectAttempts := c.reconnectAttempts + 1 } := by
  simp only [handle_disconnection, ha, hs, Bool.not_false, Bool.true_and,
    eq_self_iff_true, if_true]
  split
  · simp [connectFn, hc]
  · rfl

/-- Under consecutive failures, `n + 1` disconnection events accumulate
`n + 1` attempts and leave the client disconnected. -/
lemma iterateHandle_fail (n : Nat) (c : VTSClient) (o : VTSOracle)
    (ha : c.autoReconnect = true) (hs : c.stopRequested = false)
    (hc : o.connectOk = false) :
    iterateHandle (n + 1) c o
      = { c with
          state := .disconnected
          wsOpen := false
          reconnectAttempts := c.reconnectAttempts + (n + 1) } := by
  induction n generalizing c with
  | zero =>
    show (handle_disconnection c o).1 = _
    exact handle_disconnection_fail c o ha hs hc
  | succ n ih =>
    show iterateHandle (n + 1) (handle_disconnection c o).1 o = _
    rw [handle_disconnection_fail c o ha hs hc,
      ih { c with state := .disconnected, wsOpen := false, reconnectAttempts := c.reconnectAttempts + 1 } ha hs]
    cases c
    simp only [VTSClient.mk.injEq, true_and, and_true]
    omega

/-- C5: reconnection is bounded. A client whose attempt counter has reached
`RECONNECT_MAX_ATTEMPTS` performs no further WebSocket connect attempt on a
disconnection event (it fails fast, staying `DISCONNECTED`); each failed
reconnection pass increments the counter; and starting from a fresh
counter, after `RECONNECT_MAX_ATTEMPTS` consecutive failures the counter is
exhausted and the next disconnection event retries nothing. -/
theorem reconnect_attempts_bounded :
    (∀ (c : VTSClient) (o : VTSOracle),
        RECONNECT_MAX_ATTEMPTS ≤ c.reconnectAttempts →
        (handle_disconnection c o).2.countP (fun e => isWsAttempt e) = 0 ∧
          (handle_disconnection c o).1.state = ConnState.disconnected) ∧
      (∀ (c : VTSClient) (o : VTSOracle), c.autoReconnect = true →
        c.stopRequested = false → o.connectOk = false →
        (handle_disconnection c o).1.reconnectAttempts
          = c.reconnectAttempts + 1) ∧
      (∀ (c : VTSClient) (o : VTSOracle), c.autoReconnect = true →
        c.stopRequested = false → o.connectOk = false →
        c.reconnectAttempts = 0 →
        (iterateHandle RECONNECT_MAX_ATTEMPTS c o).reconnectAttempts
            = RECONNECT_MAX_ATTEMPTS ∧
          (handle_disconnection (iterateHandle RECONNECT_MAX_ATTEMPTS c o)
              o).2.countP (fun e => isWsAttempt e) = 0) := by
  refine ⟨handle_fail_fast, ?_, ?_⟩
  · intro c o ha hs hc
    rw [handle_disconnection_fail c o ha hs hc]
  · intro c o ha hs hc h0
    have h5 : iterateHandle RECONNECT_MAX_ATTEMPTS c o
        = { c with
            state := .disconnected
            wsOpen := false
            reconnectAttempts := c.reconnectAttempts + RECONNECT_MAX_ATTEMPTS } :=
      iterateHandle_fail 4 c o ha hs hc
    rw [h5]
    refine ⟨by simp [h0], ?_⟩
    exact (handle_fail_fast _ o (by simp [h0])).1

/-- C5 witness: concrete instances of the three parts of the bounded
reconnection property. -/
theorem reconnect_attempts_bounded_witness :
    ((handle_disconnection { c4client with reconnectAttempts := 5 }
        c4oracle).2.countP (fun e => isWsAttempt e) = 0 ∧
      (handle_disconnection { c4client with reconnectAttempts := 5 }
        c4oracle).1.state = ConnState.disconnected) ∧
      ((handle_disconnection c4client ⟨false, fun _ => none, none⟩).1.reconnectAttempts
        = c4client.reconnectAttempts + 1) ∧
      ((iterateHandle RECONNECT_MAX_ATTEMPTS c4client
          ⟨false, fun _ => none, none⟩).reconnectAttempts
          = RECONNECT_MAX_ATTEMPTS ∧
        (handle_disconnection (iterateHandle RECONNECT_MAX_ATTEMPTS c4client
            ⟨false, fun _ => none, none⟩)
            ⟨false, fun _ => none, none⟩).2.countP
          (fun e => isWsAttempt e) = 0) :=
  ⟨reconnect_attempts_bounded.1 _ _ (by decide),
    reconnect_attempts_bounded.2.1 _ _ (by decide) (by decide) (by decide),
    reconnect_attempts_bounded.2.2 _ _ (by decide) (by decide) (by decide)
      (by decide)⟩

/-- The client right after a disconnection event has dropped the link:
`DISCONNECTED` with the socket closed. -/
def droppedClient (c : VTSClient) : VTSClient :=
  { c with
    state := .disconnected
    wsOpen := false }

/-- C6: when the stored token is rejected, `_authenticate` requests exactly
one fresh token, persists it keyed by the plugin identity, stores it on the
client and reaches `AUTHENTICATED`; a subsequent reconnect in the same run
that presents the new token performs no further token request. -/
theorem token_refresh_persists (c : VTSClient) (o : VTSOracle)
    (t t2 : List Char)
    (hc : c.state = ConnState.connected) (ht : c.token = some t)
    (hrej : o.authResp t = some false) (htr : o.tokenResp = some t2)
    (hok : o.authResp t2 = some true) :
    ((authenticate c o).1 = true ∧
      (authenticate c o).2.1.state = ConnState.authenticated ∧
      (authenticate c o).2.1.token = some t2 ∧
      (authenticate c o).2.2.countP (fun e => isTokenReq e) = 1 ∧
      VTSEvent.saveToken c.pluginName c.pluginDeveloper t2
        ∈ (authenticate c o).2.2) ∧
    (∀ o2 : VTSOracle, o2.connectOk = true → o2.authResp t2 = some true →
      (connectFn (droppedClient (authenticate c o).2.1) o2).1 = true ∧
      (connectFn (droppedClient (authenticate c o).2.1) o2).2.1.token
        = some t2 ∧
      (connectFn (droppedClient (authenticate c o).2.1) o2).2.2.countP
        (fun e => isTokenReq e) = 0) := by
  have hauth : authenticate c o
      = (true,
          { c with state := .authenticated, token := some t2 },
          [VTSEvent.enterState .authenticating, VTSEvent.authRequest t,
            VTSEvent.tokenRequest, VTSEvent.authRequest t2,
            VTSEvent.enterState .authenticated,
            VTSEvent.saveToken c.pluginName c.pluginDeveloper t2]) := by
    simp [authenticate, hc, ht, authenticateWithToken, hrej, freshTokenFlow,
      htr, hok]
  rw [hauth]
  refine ⟨⟨rfl, rfl, rfl, rfl, by simp⟩, ?_⟩
  intro o2 hok2 hacc2
  have hconn : connectFn
      (droppedClient { c with state := .authenticated, token := some t2 }) o2
      = ((authenticate (connectedClient (droppedClient
            { c with state := .authenticated, token := some t2 })) o2).1,
          (authenticate (connectedClient (droppedClient
            { c with state := .authenticated, token := some t2 })) o2).2.1,
          [VTSEvent.enterState .connecting, VTSEvent.wsConnectAttempt,
            VTSEvent.enterState .connected]
            ++ (authenticate (connectedClient (droppedClient
                { c with state := .authenticated, token := some t2 })) o2).2.2) := by
    simp [connectFn, connectedClient, droppedClient, hok2]
  rw [hconn]
  have hauth2 : authenticate (connectedClient (droppedClient
      { c with state := .authenticated, token := some t2 })) o2
      = (true,
          { connectedClient (droppedClient
            { c with state := .authenticated, token := some t2 }) with
            state := ConnState.authenticated },
          [VTSEvent.enterState .authenticating, VTSEvent.authRequest t2,
            VTSEvent.enterState .authenticated]) := by
    simp [authenticate, connectedClient, droppedClient, authenticateWithToken,
      hacc2]
  rw [hauth2]
  exact ⟨rfl, rfl, rfl⟩

/-- Concrete connected client with stored token `"old"`, for the C6
witness. -/
def c6client : VTSClient :=
  ⟨"p".toList, "d".toList, true, false, ConnState.connected,
    some "old".toList, 0, true⟩

/-- Concrete oracle rejecting every token except `"new"` and issuing
`"new"` on a token request, for the C6 witness. -/
def c6oracle : VTSOracle :=
  ⟨true, fun tok => some (decide (tok = "new".toList)), some "new".toList⟩

/-- C6 witness: the stored token `"old"` is rejected, `"new"` is obtained,
persisted and reused by the subsequent reconnect without a further token
request. -/
theorem token_refresh_persists_witness :
    ((authenticate c6client c6oracle).1 = true ∧
      (authenticate c6client c6oracle).2.1.state = ConnState.authenticated ∧
      (authenticate c6client c6oracle).2.1.token = some "new".toList ∧
      (authenticate c6client c6oracle).2.2.countP
        (fun e => isTokenReq e) = 1 ∧
      VTSEvent.saveToken "p".toList "d".toList "new".toList
        ∈ (authenticate c6client c6oracle).2.2) ∧
    ((connectFn (droppedClient (authenticate c6client c6oracle).2.1)
        c6oracle).1 = true ∧
      (connectFn (droppedClient (authenticate c6client c6oracle).2.1)
        c6oracle).2.1.token = some "new".toList ∧
      (connectFn (droppedClient (authenticate c6client c6oracle).2.1)
        c6oracle).2.2.countP (fun e => isTokenReq e) = 0) :=
  ⟨(token_refresh_persists c6client c6oracle "old".toList "new".toList
      (by decide) (by decide) (by decide) (by decide) (by decide)).1,
    (token_refresh_persists c6client c6oracle "old".toList "new".toList
      (by decide) (by decide) (by decide) (by decide) (by decide)).2
      c6oracle (by decide) (by decide)⟩

/- ===== Exception-aware model of the send path: _send_request
(src/vts/api_helper.py lines 447-511) and its nested
_handle_disconnection / connect recursion ===== -/

/-- Outcome of one `_send_request` send on the wire: the socket raised
`WebSocketException`; the wait timed out or the reply lacked the expected
fields; an `AuthenticationRequest` reply carrying the server's
`authenticated` flag; an `AuthenticationTokenRequest` reply carrying a
fresh token. -/
inductive SendOutcome
  | raised
  | noResp
  | authResult (accepted : Bool)
  | tokenResult (t : List Char)
deriving DecidableEq, Repr

/-- Environment for the exception-aware model: outcome of the `k`-th
`create_connection` call and of the `k`-th message send. -/
structure NetEnv where
  conn : Nat → Bool
  send : Nat → SendOutcome

/-- Machine state threaded through the exception-aware model: the client,
cursors into the environment's outcome streams, and the accumulated event
trace. -/
structure MState where
  client : VTSClient
  connIdx : Nat
  sendIdx : Nat
  events : List VTSEvent
deriving Repr

/-- Embedding of `_send_request` (src/vts/api_helper.py lines 447-511):
with no socket (`self.ws is None`) it raises `VTSError` at once (result
`none`, no handler call); otherwise the message is put on the wire
(event `reqEv`); a `WebSocketException` runs `_handle_disconnection`
(the `handler`, lines 508-511) and then raises `VTSError` (result
`none`); any other outcome is returned to the caller. -/
def sendE (env : NetEnv) (handler : MState → MState) (st : MState)
    (reqEv : VTSEvent) : Option SendOutcome × MState :=
  if st.client.wsOpen then
    let st1 : MState := { st with
        sendIdx := st.sendIdx + 1
        events := st.events ++ [reqEv] }
    match env.send st.sendIdx with
    | SendOutcome.raised => (none, handler st1)
    | o => (some o, st1)
  else (none, st)

/-- Embedding of `_authenticate_with_token` (src/vts/api_helper.py lines
199-228) over the exception-aware send: the `VTSError` raised by
`_send_request` — after its nested `_handle_disconnection` has already
run — is caught by the `except` and turned into `False`. -/
def authWithTokenE (env : NetEnv) (handler : MState → MState)
    (st : MState) (tok : List Char) : Bool × MState :=
  match sendE env handler st (VTSEvent.authRequest tok) with
  | (some (SendOutcome.authResult true), st1) =>
    (true, { st1 with
        client := { st1.client with state := ConnState.authenticated }
        events := st1.events
          ++ [VTSEvent.enterState ConnState.authenticated] })
  | (_, st1) => (false, st1)

/-- The `self.state = ConnectionState.CONNECTED` assignment of
`_authenticate`'s failure exits, with its trace event. -/
def setConnectedEv (st : MState) : MState :=
  { st with
      client := { st.client with state := ConnState.connected }
      events := st.events ++ [VTSEvent.enterState ConnState.connected] }

/-- Fresh-token tail of `_authenticate` over the exception-aware send: a
raising `AuthenticationTokenRequest` is caught by `_authenticate`'s
`except`, which falls back to `CONNECTED`; a reply without a token also
falls back; given a token the client authenticates with it, storing and
persisting it on success and falling back to `CONNECTED` on failure. -/
def freshTokenFlowE (env : NetEnv) (handler : MState → MState)
    (st : MState) : Bool × MState :=
  match sendE env handler st VTSEvent.tokenRequest with
  | (some (SendOutcome.tokenResult t), st1) =>
    let r := authWithTokenE env handler st1 t
    if r.1 then
      (true, { r.2 with
          client := { r.2.client with token := some t }
          events := r.2.events
            ++ [VTSEvent.saveToken r.2.client.pluginName
                  r.2.client.pluginDeveloper t] })
    else (false, setConnectedEv r.2)
  | (_, st1) => (false, setConnectedEv st1)

/-- Embedding of `_authenticate` (src/vts/api_helper.py lines 147-197)
over the exception-aware send: requires `CONNECTED`; enters
`AUTHENTICATING`; tries the stored token first, clearing it on failure,
then runs the fresh-token flow. -/
def authenticateE (env : NetEnv) (handler : MState → MState)
    (st : MState) : Bool × MState :=
  if st.client.state ≠ ConnState.connected then (false, st)
  else
    let st0 : MState := { st with
        client := { st.client with state := ConnState.authenticating }
        events := st.events
          ++ [VTSEvent.enterState ConnState.authenticating] }
    match st.client.token with
    | some t =>
      let r := authWithTokenE env handler st0 t
      if r.1 then (true, r.2)
      else
        freshTokenFlowE env handler
          { r.2 with client := { r.2.client with token := none } }
    | none => freshTokenFlowE env handler st0

/-- Embedding of `_handle_disconnection` (src/vts/api_helper.py lines
409-438) parameterised by the reconnect pass `connectF` (the nested
`self.connect()` call at line 429). -/
def handleDisconnectionE (connectF : MState → Bool × MState)
    (st : MState) : MState :=
  let st0 : MState := { st with
      client := { st.client with
        state := ConnState.disconnected
        wsOpen := false }
      events := st.events ++ [VTSEvent.enterState ConnState.disconnected] }
  if st.client.autoReconnect && !st.client.stopRequested then
    let st1 : MState := { st0 with
        client := { st0.client with
          reconnectAttempts := st0.client.reconnectAttempts + 1 } }
    if st1.client.reconnectAttempts ≤ RECONNECT_MAX_ATTEMPTS then
      (connectF { st1 with
          events := st1.events
            ++ [VTSEvent.reconnectWait st1.client.reconnectAttempts] }).2
    else st1
  else st0

/-- Embedding of `connect` (src/vts/api_helper.py lines 108-145) over the
exception-aware send. The definition is fuel-indexed because a raising
send inside the authentication re-enters `connect` through
`_handle_disconnection` with no bound in the source (a successful
`create_connection` resets `reconnect_attempts` to `0` at line 129);
exhausted fuel returns `False` with the state unchanged. -/
def connectE (env : NetEnv) : Nat → MState → Bool × MState
  | 0, st => (false, st)
  | fuel + 1, st =>
    let handler : MState → MState :=
      fun s => handleDisconnectionE (fun s2 => connectE env fuel s2) s
    if st.client.state = ConnState.authenticated then (true, st)
    else if st.client.state = ConnState.disconnected then
      let stC : MState := { st with
          client := { st.client with state := ConnState.connecting }
          connIdx := st.connIdx + 1
          events := st.events
            ++ [VTSEvent.enterState ConnState.connecting,
                VTSEvent.wsConnectAttempt] }
      if env.conn st.connIdx then
        let stOk : MState := { stC with
            client := { stC.client with
              state := ConnState.connected
              wsOpen := true
              reconnectAttempts := 0 }
            events := stC.events
              ++ [VTSEvent.enterState ConnState.connected] }
        authenticateE env handler stOk
      else
        (false, { stC with
            client := { stC.client with
              state := ConnState.disconnected
              wsOpen := false }
            events := stC.events
              ++ [VTSEvent.enterState ConnState.disconnected] })
    else if st.client.state = ConnState.connected then
      authenticateE env handler st
    else (false, st)

/-- Embedding of `ensure_connected` (src/vts/api_helper.py lines 535-549)
over the exception-aware model. -/
def ensureConnectedE (env : NetEnv) (fuel : Nat) (st : MState) :
    Bool × MState :=
  if st.client.state = ConnState.authenticated then (true, st)
  else if st.client.state = ConnState.disconnected then connectE env fuel st
  else (false, st)

/-- Environment whose first `create_connection` succeeds, whose later
ones fail, and whose every send raises `WebSocketException`. -/
def c4env : NetEnv :=
  ⟨fun k => decide (k = 0), fun _ => SendOutcome.raised⟩

/-- The concrete disconnected client wrapped as a machine state with an
empty trace. -/
def c4mstate : MState :=
  ⟨c4client, 0, 0, []⟩

/-- Environment with a reliable connection and a server that accepts
every authentication request. -/
def cleanEnv : NetEnv :=
  ⟨fun _ => true, fun _ => SendOutcome.authResult true⟩

/-- C4 counterexample: when the `AuthenticationRequest` send raises
`WebSocketException`, `_send_request` (src/vts/api_helper.py lines
508-511) runs `_handle_disconnection`, whose nested `connect()` performs
a second `create_connection` attempt within the same `ensure_connected`
call, and the assigned-state sequence leaves the documented three; so
"exactly one connection attempt" fails on the exception path. -/
theorem c4_counterexample :
    ¬ ((ensureConnectedE c4env 5 c4mstate).2.events.countP
          (fun e => isWsAttempt e) = 1 ∧
        (stateSeq (ensureConnectedE c4env 5 c4mstate).2.events
            = [ConnState.connecting, ConnState.disconnected] ∨
          stateSeq (ensureConnectedE c4env 5 c4mstate).2.events
            = [ConnState.connecting, ConnState.connected,
                ConnState.authenticating, ConnState.authenticated] ∨
          stateSeq (ensureConnectedE c4env 5 c4mstate).2.events
            = [ConnState.connecting, ConnState.connected,
                ConnState.authenticating, ConnState.connected])) := by
  decide

/-- Trace invariant: every `AUTHENTICATED` state assignment in the event
list is preceded by a `CONNECTING` and a `CONNECTED` assignment. -/
def EvInv (evs : List VTSEvent) : Prop :=
  ∀ l1 l2, evs = l1 ++ VTSEvent.enterState ConnState.authenticated :: l2 →
    VTSEvent.enterState ConnState.connecting ∈ l1 ∧
      VTSEvent.enterState ConnState.connected ∈ l1

lemma evInv_nil : EvInv [] := by
  intro l1 l2 h
  exact absurd h (by cases l1 <;> simp)

lemma inv_append (evs d : List VTSEvent) (hI : EvInv evs)
    (hd : ∀ e ∈ d, e = VTSEvent.enterState ConnState.authenticated →
      VTSEvent.enterState ConnState.connecting ∈ evs ∧
        VTSEvent.enterState ConnState.connected ∈ evs) :
    EvInv (evs ++ d) := by
  intro l1 l2 h
  rcases List.append_eq_append_iff.mp h with ⟨a1, ha, hb⟩ | ⟨c1, hc, hcd⟩
  · have hmem := hd _ (by
      rw [hb]
      exact List.mem_append_right _ (List.mem_cons_self _ _)) rfl
    rw [ha]
    exact ⟨List.mem_append_left _ hmem.1, List.mem_append_left _ hmem.2⟩
  · cases c1 with
    | nil =>
      rw [List.append_nil] at hc
      rw [List.nil_append] at hcd
      have hmem := hd _ (by
        rw [← hcd]
        exact List.mem_cons_self _ _) rfl
      rw [hc] at hmem
      exact hmem
    | cons x c2 =>
      rw [List.cons_append] at hcd
      injection hcd with hx hl
      subst hx
      exact hI l1 c2 hc

lemma inv_append_free (evs d : List VTSEvent) (hI : EvInv evs)
    (hnd : VTSEvent.enterState ConnState.authenticated ∉ d) :
    EvInv (evs ++ d) :=
  inv_append evs d hI (fun e he heq => absurd (heq ▸ he) hnd)

lemma authWithTokenE_mono (env : NetEnv) (handler : MState → MState)
    (hHm : ∀ s e, e ∈ s.events → e ∈ (handler s).events)
    (st : MState) (tok : List Char) (e : VTSEvent) (he : e ∈ st.events) :
    e ∈ (authWithTokenE env handler st tok).2.events := by
  rcases hws : st.client.wsOpen with _ | _
  · simp [authWithTokenE, sendE, hws, he]
  · rcases hout : env.send st.sendIdx with _ | _ | b | t
    · simp only [authWithTokenE, sendE, hws, hout]
      exact hHm _ _ (List.mem_append_left _ he)
    · simp [authWithTokenE, sendE, hws, hout, he]
    · rcases b with _ | _
      · simp [authWithTokenE, sendE, hws, hout, he]
      · simp [authWithTokenE, sendE, hws, hout, he]
    · simp [authWithTokenE, sendE, hws, hout, he]

lemma freshTokenFlowE_mono (env : NetEnv) (handler : MState → MState)
    (hHm : ∀ s e, e ∈ s.events → e ∈ (handler s).events)
    (st : MState) (e : VTSEvent) (he : e ∈ st.events) :
    e ∈ (freshTokenFlowE env handler st).2.events := by
  rcases hws : st.client.wsOpen with _ | _
  · simp [freshTokenFlowE, sendE, setConnectedEv, hws, he]
  · rcases hout : env.send st.sendIdx with _ | _ | b | t
    · simp [freshTokenFlowE, sendE, setConnectedEv, hws, hout]
      exact Or.inl (hHm _ _ (List.mem_append_left _ he))
    · simp [freshTokenFlowE, sendE, setConnectedEv, hws, hout, he]
    · simp [freshTokenFlowE, sendE, setConnectedEv, hws, hout, he]
    · have hsend : sendE env handler st VTSEvent.tokenRequest
          = (some (SendOutcome.tokenResult t),
            { st with
              sendIdx := st.sendIdx + 1
              events := st.events ++ [VTSEvent.tokenRequest] }) := by
        simp [sendE, hws, hout]
      simp only [freshTokenFlowE, hsend]
      split
      · simp only [List.mem_append]
        exact Or.inl (authWithTokenE_mono env handler hHm _ t e
          (List.mem_append_left _ he))
      · simp only [setConnectedEv, List.mem_append]
        exact Or.inl (authWithTokenE_mono env handler hHm _ t e
          (List.mem_append_left _ he))

lemma authenticateE_mono (env : NetEnv) (handler : MState → MState)
    (hHm : ∀ s e, e ∈ s.events → e ∈ (handler s).events)
    (st : MState) (e : VTSEvent) (he : e ∈ st.events) :
    e ∈ (authenticateE env handler st).2.events := by
  by_cases hs : st.client.state = ConnState.connected
  · cases htok : st.client.token with
    | none =>
      simp only [authenticateE, hs, htok]
      simp only [ne_eq, not_true_eq_false, if_false]
      exact freshTokenFlowE_mono env handler hHm _ e
        (List.mem_append_left _ he)
    | some t =>
      simp only [authenticateE, hs, htok]
      simp only [ne_eq, not_true_eq_false, if_false]
      split
      · exact authWithTokenE_mono env handler hHm _ t e
          (List.mem_append_left _ he)
      · exact freshTokenFlowE_mono env handler hHm _ e
          (authWithTokenE_mono env handler hHm _ t e
            (List.mem_append_left _ he))
  · simp [authenticateE, hs, he]

lemma handleDisconnectionE_mono (connectF : MState → Bool × MState)
    (hCm : ∀ s e, e ∈ s.events → e ∈ (connectF s).2.events)
    (st : MState) (e : VTSEvent) (he : e ∈ st.events) :
    e ∈ (handleDisconnectionE connectF st).events := by
  by_cases hb : (st.client.autoReconnect && !st.client.stopRequested) = true
  · by_cases h5 : st.client.reconnectAttempts + 1 ≤ RECONNECT_MAX_ATTEMPTS
    · simp only [handleDisconnectionE, hb, h5, if_true]
      exact hCm _ _ (by simp [he])
    · simp [handleDisconnectionE, hb, h5, he]
  · simp [handleDisconnectionE, hb, he]

lemma connectE_mono (env : NetEnv) :
    ∀ (fuel : Nat) (st : MState) (e : VTSEvent), e ∈ st.events →
      e ∈ (connectE env fuel st).2.events := by
  intro fuel
  induction fuel with
  | zero =>
    intro st e he
    simpa [connectE] using he
  | succ n ih =>
    intro st e he
    have hHm : ∀ s e, e ∈ s.events →
        e ∈ (handleDisconnectionE (fun s2 => connectE env n s2) s).events :=
      fun s e2 he2 =>
        handleDisconnectionE_mono _ (fun s2 e3 he3 => ih s2 e3 he3) s e2 he2
    by_cases h1 : st.client.state = ConnState.authenticated
    · simp [connectE, h1, he]
    · by_cases h2 : st.client.state = ConnState.disconnected
      · by_cases hc : env.conn st.connIdx = true
        · simp [connectE, h1, h2, hc]
          refine authenticateE_mono env _ hHm _ e ?_
          simp [he]
        · simp [connectE, h1, h2, hc, he]
      · by_cases h3 : st.client.state = ConnState.connected
        · simp [connectE, h1, h2, h3]
          exact authenticateE_mono env _ hHm _ e he
        · simp [connectE, h1, h2, h3, he]

lemma authWithTokenE_inv (env : NetEnv) (handler : MState → MState)
    (st : MState) (tok : List Char)
    (hHi : ∀ s, EvInv s.events → EvInv (handler s).events)
    (hI : EvInv st.events)
    (hc1 : VTSEvent.enterState ConnState.connecting ∈ st.events)
    (hc2 : VTSEvent.enterState ConnState.connected ∈ st.events) :
    EvInv (authWithTokenE env handler st tok).2.events := by
  have h1 : EvInv (st.events ++ [VTSEvent.authRequest tok]) :=
    inv_append_free _ _ hI (by simp)
  rcases hws : st.client.wsOpen with _ | _
  · simpa [authWithTokenE, sendE, hws] using hI
  · rcases hout : env.send st.sendIdx with _ | _ | b | t
    · simpa [authWithTokenE, sendE, hws, hout] using hHi _ h1
    · simpa [authWithTokenE, sendE, hws, hout] using h1
    · rcases b with _ | _
      · simpa [authWithTokenE, sendE, hws, hout] using h1
      · have h2 : EvInv (st.events ++ [VTSEvent.authRequest tok,
            VTSEvent.enterState ConnState.authenticated]) :=
          inv_append _ _ hI (fun _ _ _ => ⟨hc1, hc2⟩)
        simpa [authWithTokenE, sendE, hws, hout, List.append_assoc] using h2
    · simpa [authWithTokenE, sendE, hws, hout] using h1

lemma freshTokenFlowE_inv (env : NetEnv) (handler : MState → MState)
    (st : MState)
    (hHm : ∀ s e, e ∈ s.events → e ∈ (handler s).events)
    (hHi : ∀ s, EvInv s.events → EvInv (handler s).events)
    (hI : EvInv st.events)
    (hc1 : VTSEvent.enterState ConnState.connecting ∈ st.events)
    (hc2 : VTSEvent.enterState ConnState.connected ∈ st.events) :
    EvInv (freshTokenFlowE env handler st).2.events := by
  rcases hws : st.client.wsOpen with _ | _
  · have h2 := inv_append_free st.events
      [VTSEvent.enterState ConnState.connected] hI (by decide)
    simpa [freshTokenFlowE, sendE, setConnectedEv, hws] using h2
  · have h1 : EvInv (st.events ++ [VTSEvent.tokenRequest]) :=
      inv_append_free _ _ hI (by decide)
    rcases hout : env.send st.sendIdx with _ | _ | b | t
    · have h2 := hHi { st with
        sendIdx := st.sendIdx + 1
        events := st.events ++ [VTSEvent.tokenRequest] } h1
      have h3 := inv_append_free _
        [VTSEvent.enterState ConnState.connected] h2 (by decide)
      simpa [freshTokenFlowE, sendE, setConnectedEv, hws, hout] using h3
    · have h3 := inv_append_free st.events
        [VTSEvent.tokenRequest, VTSEvent.enterState ConnState.connected]
        hI (by decide)
      simpa [freshTokenFlowE, sendE, setConnectedEv, hws, hout,
        List.append_assoc] using h3
    · have h3 := inv_append_free st.events
        [VTSEvent.tokenRequest, VTSEvent.enterState ConnState.connected]
        hI (by decide)
      simpa [freshTokenFlowE, sendE, setConnectedEv, hws, hout,
        List.append_assoc] using h3
    · have hsend : sendE env handler st VTSEvent.tokenRequest
          = (some (SendOutcome.tokenResult t),
            { st with
              sendIdx := st.sendIdx + 1
              events := st.events ++ [VTSEvent.tokenRequest] }) := by
        simp [sendE, hws, hout]
      have hInner : EvInv (authWithTokenE env handler
          { st with
            sendIdx := st.sendIdx + 1
            events := st.events ++ [VTSEvent.tokenRequest] } t).2.events :=
        authWithTokenE_inv env handler _ t hHi h1
          (List.mem_append_left _ hc1) (List.mem_append_left _ hc2)
      simp only [freshTokenFlowE, hsend]
      split
      · exact inv_append_free _ _ hInner (by simp)
      · exact inv_append_free _ _ hInner (by decide)

lemma authenticateE_inv (env : NetEnv) (handler : MState → MState)
    (st : MState)
    (hHm : ∀ s e, e ∈ s.events → e ∈ (handler s).events)
    (hHi : ∀ s, EvInv s.events → EvInv (handler s).events)
    (hI : EvInv st.events)
    (hmem : st.client.state = ConnState.connected →
      VTSEvent.enterState ConnState.connecting ∈ st.events ∧
        VTSEvent.enterState ConnState.connected ∈ st.events) :
    EvInv (authenticateE env handler st).2.events := by
  by_cases hs : st.client.state = ConnState.connected
  · obtain ⟨hc1, hc2⟩ := hmem hs
    have h0 : EvInv (st.events
        ++ [VTSEvent.enterState ConnState.authenticating]) :=
      inv_append_free _ _ hI (by decide)
    have hc1' : VTSEvent.enterState ConnState.connecting
        ∈ st.events ++ [VTSEvent.enterState ConnState.authenticating] :=
      List.mem_append_left _ hc1
    have hc2' : VTSEvent.enterState ConnState.connected
        ∈ st.events ++ [VTSEvent.enterState ConnState.authenticating] :=
      List.mem_append_left _ hc2
    cases htok : st.client.token with
    | none =>
      simp only [authenticateE, hs, htok]
      simp only [ne_eq, not_true_eq_false, if_false]
      exact freshTokenFlowE_inv env handler _ hHm hHi h0 hc1' hc2'
    | some t =>
      simp only [authenticateE, hs, htok]
      simp only [ne_eq, not_true_eq_false, if_false]
      have hInner : EvInv (authWithTokenE env handler
          { st with
            client := { st.client with
              state := ConnState.authenticating
              token := some t }
            events := st.events
              ++ [VTSEvent.enterState ConnState.authenticating] }
          t).2.events :=
        authWithTokenE_inv env handler _ t hHi h0 hc1' hc2'
      split
      · exact hInner
      · refine freshTokenFlowE_inv env handler _ hHm hHi ?_ ?_ ?_
        · exact hInner
        · exact authWithTokenE_mono env handler hHm _ t _ hc1'
        · exact authWithTokenE_mono env handler hHm _ t _ hc2'
  · simpa [authenticateE, hs] using hI

lemma handleDisconnectionE_inv (connectF : MState → Bool × MState)
    (hCi : ∀ s, s.client.state = ConnState.disconnected → EvInv s.events →
      EvInv (connectF s).2.events)
    (st : MState) (hI : EvInv st.events) :
    EvInv (handleDisconnectionE connectF st).events := by
  have h0 : EvInv (st.events
      ++ [VTSEvent.enterState ConnState.disconnected]) :=
    inv_append_free _ _ hI (by decide)
  by_cases hb : (st.client.autoReconnect && !st.client.stopRequested) = true
  · by_cases h5 : st.client.reconnectAttempts + 1 ≤ RECONNECT_MAX_ATTEMPTS
    · simp only [handleDisconnectionE, hb, h5, if_true]
      refine hCi _ rfl ?_
      exact inv_append_free _ _ h0 (by simp)
    · simpa [handleDisconnectionE, hb, h5] using h0
  · simpa [handleDisconnectionE, hb] using h0

lemma connectE_inv (env : NetEnv) :
    ∀ (fuel : Nat) (st : MState), EvInv st.events →
      (st.client.state = ConnState.connected →
        VTSEvent.enterState ConnState.connecting ∈ st.events ∧
          VTSEvent.enterState ConnState.connected ∈ st.events) →
      EvInv (connectE env fuel st).2.events := by
  intro fuel
  induction fuel with
  | zero =>
    intro st hI _
    simpa [connectE] using hI
  | succ n ih =>
    intro st hI hmem
    have hHm : ∀ s e, e ∈ s.events →
        e ∈ (handleDisconnectionE (fun s2 => connectE env n s2) s).events :=
      fun s e2 he2 =>
        handleDisconnectionE_mono _
          (fun s2 e3 he3 => connectE_mono env n s2 e3 he3) s e2 he2
    have hHi : ∀ s, EvInv s.events →
        EvInv (handleDisconnectionE (fun s2 => connectE env n s2) s).events :=
      fun s hs =>
        handleDisconnectionE_inv _
          (fun s2 hd2 hi2 => ih s2 hi2
            (fun hco => absurd (hd2 ▸ hco) (by
              intro hcontra
              exact absurd hcontra (by decide)))) s hs
    by_cases h1 : st.client.state = ConnState.authenticated
    · simpa [connectE, h1] using hI
    · by_cases h2 : st.client.state = ConnState.disconnected
      · by_cases hc : env.conn st.connIdx = true
        · simp [connectE, h1, h2, hc]
          refine authenticateE_inv env _ _ hHm hHi ?_ ?_
          · exact inv_append_free _ _ hI (by decide)
          · intro _
            constructor
            · simp
            · simp
        · have h3 := inv_append_free st.events
            [VTSEvent.enterState ConnState.connecting,
              VTSEvent.wsConnectAttempt,
              VTSEvent.enterState ConnState.disconnected] hI (by decide)
          simpa [connectE, h1, h2, hc, List.append_assoc] using h3
      · by_cases h3 : st.client.state = ConnState.connected
        · simp [connectE, h1, h2, h3]
          exact authenticateE_inv env
            (fun s => handleDisconnectionE (fun s2 => connectE env n s2) s)
            st hHm hHi hI hmem
        · simpa [connectE, h1, h2, h3] using hI

lemma ensureConnectedE_inv (env : NetEnv) (fuel : Nat) (st : MState)
    (hI : EvInv st.events)
    (hmem : st.client.state = ConnState.connected →
      VTSEvent.enterState ConnState.connecting ∈ st.events ∧
        VTSEvent.enterState ConnState.connected ∈ st.events) :
    EvInv (ensureConnectedE env fuel st).2.events := by
  by_cases h1 : st.client.state = ConnState.authenticated
  · simpa [ensureConnectedE, h1] using hI
  · by_cases h2 : st.client.state = ConnState.disconnected
    · simpa [ensureConnectedE, h1, h2] using connectE_inv env fuel st hI hmem
    · simpa [ensureConnectedE, h1, h2] using hI

lemma authWithTokenE_clean (env : NetEnv) (handler : MState → MState)
    (st : MState) (tok : List Char)
    (hNR : ∀ i, env.send i ≠ SendOutcome.raised)
    (hws : st.client.wsOpen = true) :
    authWithTokenE env handler st tok
        = (true, { st with
            client := { st.client with state := ConnState.authenticated }
            sendIdx := st.sendIdx + 1
            events := st.events ++ [VTSEvent.authRequest tok,
              VTSEvent.enterState ConnState.authenticated] }) ∨
      authWithTokenE env handler st tok
        = (false, { st with
            sendIdx := st.sendIdx + 1
            events := st.events ++ [VTSEvent.authRequest tok] }) := by
  rcases hout : env.send st.sendIdx with _ | _ | b | t
  · exact absurd hout (hNR _)
  · right
    simp [authWithTokenE, sendE, hws, hout]
  · rcases b with _ | _
    · right
      simp [authWithTokenE, sendE, hws, hout]
    · left
      simp [authWithTokenE, sendE, hws, hout, List.append_assoc]
  · right
    simp [authWithTokenE, sendE, hws, hout]

lemma freshTokenFlowE_clean (env : NetEnv) (handler : MState → MState)
    (st : MState)
    (hNR : ∀ i, env.send i ≠ SendOutcome.raised)
    (hws : st.client.wsOpen = true) :
    ∃ d, (freshTokenFlowE env handler st).2.events = st.events ++ d ∧
      d.countP (fun e => isWsAttempt e) = 0 ∧
      (stateSeq d = [ConnState.authenticated] ∨
        stateSeq d = [ConnState.connected]) := by
  rcases hout : env.send st.sendIdx with _ | _ | b | t
  · exact absurd hout (hNR _)
  · refine ⟨[VTSEvent.tokenRequest, VTSEvent.enterState ConnState.connected],
      ?_, ?_, Or.inr ?_⟩
    · simp [freshTokenFlowE, sendE, setConnectedEv, hws, hout,
        List.append_assoc]
    · decide
    · decide
  · refine ⟨[VTSEvent.tokenRequest, VTSEvent.enterState ConnState.connected],
      ?_, ?_, Or.inr ?_⟩
    · simp [freshTokenFlowE, sendE, setConnectedEv, hws, hout,
        List.append_assoc]
    · decide
    · decide
  · have hsend : sendE env handler st VTSEvent.tokenRequest
        = (some (SendOutcome.tokenResult t), { st with
            sendIdx := st.sendIdx + 1
            events := st.events ++ [VTSEvent.tokenRequest] }) := by
      simp [sendE, hws, hout]
    rcases authWithTokenE_clean env handler
        { st with
          sendIdx := st.sendIdx + 1
          events := st.events ++ [VTSEvent.tokenRequest] } t hNR hws
      with hT | hF
    · refine ⟨[VTSEvent.tokenRequest, VTSEvent.authRequest t,
        VTSEvent.enterState ConnState.authenticated,
        VTSEvent.saveToken st.client.pluginName st.client.pluginDeveloper t],
        ?_, ?_, Or.inl ?_⟩
      · simp [freshTokenFlowE, hsend, hT, List.append_assoc]
      · rfl
      · rfl
    · refine ⟨[VTSEvent.tokenRequest, VTSEvent.authRequest t,
        VTSEvent.enterState ConnState.connected], ?_, ?_, Or.inr ?_⟩
      · simp [freshTokenFlowE, hsend, hF, setConnectedEv, List.append_assoc]
      · rfl
      · rfl

lemma authenticateE_clean (env : NetEnv) (handler : MState → MState)
    (st : MState)
    (hNR : ∀ i, env.send i ≠ SendOutcome.raised)
    (hws : st.client.wsOpen = true)
    (hst : st.client.state = ConnState.connected) :
    ∃ d, (authenticateE env handler st).2.events = st.events ++ d ∧
      d.countP (fun e => isWsAttempt e) = 0 ∧
      (stateSeq d = [ConnState.authenticating, ConnState.authenticated] ∨
        stateSeq d = [ConnState.authenticating, ConnState.connected]) := by
  cases htok : st.client.token with
  | none =>
    have hEq : authenticateE env handler st
        = freshTokenFlowE env handler { st with
            client := { st.client with
              state := ConnState.authenticating
              token := none }
            events := st.events
              ++ [VTSEvent.enterState ConnState.authenticating] } := by
      simp [authenticateE, hst, htok]
    obtain ⟨d, hd, hcp, hseq⟩ := freshTokenFlowE_clean env handler
      { st with
        client := { st.client with
          state := ConnState.authenticating
          token := none }
        events := st.events
          ++ [VTSEvent.enterState ConnState.authenticating] } hNR hws
    refine ⟨VTSEvent.enterState ConnState.authenticating :: d, ?_, ?_, ?_⟩
    · rw [hEq, hd]
      simp
    · simpa [List.countP_cons, isWsAttempt] using hcp
    · rcases hseq with h2 | h2
      · left
        simpa [stateSeq, List.filterMap_cons] using h2
      · right
        simpa [stateSeq, List.filterMap_cons] using h2
  | some t =>
    rcases authWithTokenE_clean env handler
        { st with
          client := { st.client with
            state := ConnState.authenticating
            token := some t }
          events := st.events
            ++ [VTSEvent.enterState ConnState.authenticating] } t hNR hws
      with hT | hF
    · refine ⟨[VTSEvent.enterState ConnState.authenticating,
        VTSEvent.authRequest t,
        VTSEvent.enterState ConnState.authenticated], ?_, ?_, Or.inl ?_⟩
      · simp [authenticateE, hst, htok, hT, List.append_assoc]
      · rfl
      · rfl
    · have hEq : authenticateE env handler st
          = freshTokenFlowE env handler { st with
              client := { st.client with
                state := ConnState.authenticating
                token := none }
              sendIdx := st.sendIdx + 1
              events := st.events
                ++ [VTSEvent.enterState ConnState.authenticating,
                    VTSEvent.authRequest t] } := by
        simp [authenticateE, hst, htok, hF, List.append_assoc]
      obtain ⟨d, hd, hcp, hseq⟩ := freshTokenFlowE_clean env handler
        { st with
          client := { st.client with
            state := ConnState.authenticating
            token := none }
          sendIdx := st.sendIdx + 1
          events := st.events
            ++ [VTSEvent.enterState ConnState.authenticating,
                VTSEvent.authRequest t] } hNR hws
      refine ⟨VTSEvent.enterState ConnState.authenticating
        :: VTSEvent.authRequest t :: d, ?_, ?_, ?_⟩
      · rw [hEq, hd]
        simp
      · simpa [List.countP_cons, isWsAttempt] using hcp
      · rcases hseq with h2 | h2
        · left
          simpa [stateSeq, List.filterMap_cons] using h2
        · right
          simpa [stateSeq, List.filterMap_cons] using h2

/-- C4 (amended): over the exception-aware model, starting from
`DISCONNECTED` with an empty trace: (i) provided no send raises
`WebSocketException` mid-pass, `ensure_connected` performs exactly one
`create_connection` attempt and the assigned-state sequence is one of
`[CONNECTING, DISCONNECTED]`,
`[CONNECTING, CONNECTED, AUTHENTICATING, AUTHENTICATED]` and
`[CONNECTING, CONNECTED, AUTHENTICATING, CONNECTED]`; (ii) on every
path, raising sends included, `AUTHENTICATED` is never assigned without
`CONNECTING` and `CONNECTED` having been assigned before it. -/
theorem c4_amended (env : NetEnv) (fuel : Nat) (st : MState)
    (hst : st.client.state = ConnState.disconnected)
    (hev : st.events = [])
    (hNR : ∀ i, env.send i ≠ SendOutcome.raised) :
    ((ensureConnectedE env (fuel + 1) st).2.events.countP
        (fun e => isWsAttempt e) = 1 ∧
      (stateSeq (ensureConnectedE env (fuel + 1) st).2.events
          = [ConnState.connecting, ConnState.disconnected] ∨
        stateSeq (ensureConnectedE env (fuel + 1) st).2.events
          = [ConnState.connecting, ConnState.connected,
              ConnState.authenticating, ConnState.authenticated] ∨
        stateSeq (ensureConnectedE env (fuel + 1) st).2.events
          = [ConnState.connecting, ConnState.connected,
              ConnState.authenticating, ConnState.connected])) ∧
    (∀ (env2 : NetEnv) (fuel2 : Nat) (l1 l2 : List VTSEvent),
      (ensureConnectedE env2 fuel2 st).2.events
          = l1 ++ VTSEvent.enterState ConnState.authenticated :: l2 →
      VTSEvent.enterState ConnState.connecting ∈ l1 ∧
        VTSEvent.enterState ConnState.connected ∈ l1) := by
  constructor
  · have hEq0 : ensureConnectedE env (fuel + 1) st
        = connectE env (fuel + 1) st := by
      simp [ensureConnectedE, hst]
    rw [hEq0]
    by_cases hc : env.conn st.connIdx = true
    · have hEq1 : connectE env (fuel + 1) st
          = authenticateE env
              (fun s => handleDisconnectionE
                (fun s2 => connectE env fuel s2) s)
              { st with
                client := { st.client with
                  state := ConnState.connected
                  wsOpen := true
                  reconnectAttempts := 0 }
                connIdx := st.connIdx + 1
                events := st.events
                  ++ [VTSEvent.enterState ConnState.connecting,
                      VTSEvent.wsConnectAttempt,
                      VTSEvent.enterState ConnState.connected] } := by
        simp [connectE, hst, hc, List.append_assoc]
      rw [hEq1]
      obtain ⟨d, hd, hcp, hseq⟩ := authenticateE_clean env
        (fun s => handleDisconnectionE
          (fun s2 => connectE env fuel s2) s)
        { st with
          client := { st.client with
            state := ConnState.connected
            wsOpen := true
            reconnectAttempts := 0 }
          connIdx := st.connIdx + 1
          events := st.events
            ++ [VTSEvent.enterState ConnState.connecting,
                VTSEvent.wsConnectAttempt,
                VTSEvent.enterState ConnState.connected] } hNR rfl rfl
      constructor
      · rw [hd, List.countP_append, hcp, hev]
        simp [List.countP_cons, isWsAttempt]
      · rcases hseq with h2 | h2
        · right
          left
          rw [hd, stateSeq_append, h2, hev]
          simp [stateSeq]
        · right
          right
          rw [hd, stateSeq_append, h2, hev]
          simp [stateSeq]
    · have hEq1 : connectE env (fuel + 1) st
          = (false, { st with
              client := { st.client with
                state := ConnState.disconnected
                wsOpen := false }
              connIdx := st.connIdx + 1
              events := st.events
                ++ [VTSEvent.enterState ConnState.connecting,
                    VTSEvent.wsConnectAttempt,
                    VTSEvent.enterState ConnState.disconnected] }) := by
        simp [connectE, hst, hc, List.append_assoc]
      rw [hEq1]
      refine ⟨?_, Or.inl ?_⟩
      · rw [hev]
        simp [List.countP_cons, isWsAttempt]
      · rw [hev]
        simp [stateSeq]
  · intro env2 fuel2 l1 l2 h
    refine ensureConnectedE_inv env2 fuel2 st ?_ ?_ l1 l2 h
    · rw [hev]
      exact evInv_nil
    · intro hco
      rw [hst] at hco
      exact absurd hco (by decide)

/-- C4 witness: with a reliable connection and an accepting server, the
concrete disconnected client makes exactly one connection attempt and
reaches `AUTHENTICATED` through `CONNECTING` and `CONNECTED`, whose
assignments indeed precede the `AUTHENTICATED` one in the trace. -/
theorem c4_amended_witness :
    ((ensureConnectedE cleanEnv 1 c4mstate).2.events.countP
        (fun e => isWsAttempt e) = 1 ∧
      (stateSeq (ensureConnectedE cleanEnv 1 c4mstate).2.events
          = [ConnState.connecting, ConnState.disconnected] ∨
        stateSeq (ensureConnectedE cleanEnv 1 c4mstate).2.events
          = [ConnState.connecting, ConnState.connected,
              ConnState.authenticating, ConnState.authenticated] ∨
        stateSeq (ensureConnectedE cleanEnv 1 c4mstate).2.events
          = [ConnState.connecting, ConnState.connected,
              ConnState.authenticating, ConnState.connected])) ∧
    (VTSEvent.enterState ConnState.connecting
        ∈ [VTSEvent.enterState ConnState.connecting,
            VTSEvent.wsConnectAttempt,
            VTSEvent.enterState ConnState.connected,
            VTSEvent.enterState ConnState.authenticating,
            VTSEvent.authRequest "tok".toList] ∧
      VTSEvent.enterState ConnState.connected
        ∈ [VTSEvent.enterState ConnState.connecting,
            VTSEvent.wsConnectAttempt,
            VTSEvent.enterState ConnState.connected,
            VTSEvent.enterState ConnState.authenticating,
            VTSEvent.authRequest "tok".toList]) :=
  ⟨(c4_amended cleanEnv 0 c4mstate rfl rfl (fun i => by simp [cleanEnv])).1,
    (c4_amended cleanEnv 0 c4mstate rfl rfl (fun i => by simp [cleanEnv])).2 cleanEnv 1
      [VTSEvent.enterState ConnState.connecting,
        VTSEvent.wsConnectAttempt,
        VTSEvent.enterState ConnState.connected,
        VTSEvent.enterState ConnState.authenticating,
        VTSEvent.authRequest "tok".toList] [] (by decide)⟩

/- ===== SynthesisWorker: TTSManager (src/tts/synthesizer.py) ===== -/

/-- Little-endian 16-bit read at byte offset `i` (`struct.unpack '<H'`). -/
def readU16LE (b : List Nat) (i : Nat) : Nat :=
  b.getD i 0 + 256 * b.getD (i + 1) 0

/-- Little-endian 32-bit read at byte offset `i` (`struct.unpack '<I'`). -/
def readU32LE (b : List Nat) (i : Nat) : Nat :=
  b.getD i 0 + 256 * b.getD (i + 1) 0 + 65536 * b.getD (i + 2) 0
    + 16777216 * b.getD (i + 3) 0

/-- Byte string of an ASCII literal. -/
def asciiBytes (s : List Char) : List Nat :=
  s.map Char.toNat

/-- Starts-with check over byte lists. -/
def startsWithBytes : List Nat → List Nat → Bool
  | [], _ => true
  | _ :: _, [] => false
  | a :: xs, b :: ys => a = b && startsWithBytes xs ys

/-- First index at which `pat` occurs in `b` from offset `i` on. -/
def findSubFrom (pat : List Nat) : List Nat → Nat → Option Nat
  | [], i => if startsWithBytes pat [] then some i else none
  | c :: rest, i =>
      if startsWithBytes pat (c :: rest) then some i
      else findSubFrom pat rest (i + 1)

/-- Python `bytes.find(pat)` (None where the code gets `-1`). -/
def findSub (b pat : List Nat) : Option Nat :=
  findSubFrom pat b 0

/-- The fields unpacked from the WAV `fmt ` chunk. -/
structure WavFmt where
  audioFormat : Nat
  channels : Nat
  sampleRate : Nat
  byteRate : Nat
  blockAlign : Nat
  bitsPerSample : Nat
deriving DecidableEq, Repr

/-- Embedding of the WAV-header parsing in `TTSManager.synthesize_audio`
(src/tts/synthesizer.py lines 122-161): read exactly 44 header bytes (fewer
is an error), check the `RIFF`/`WAVE` magic, locate the `fmt ` chunk and
unpack `<HHIIHH` from the 16 bytes after its tag (a short slice raises
`struct.error`, caught as an error), and require a `data` tag. `none` is
every path on which the code raises `TTSError`. -/
def parseWavHeader (raw : List Nat) : Option WavFmt :=
  if raw.length < 44 then none
  else
    let header := raw.take 44
    if ¬ (header.take 4 = asciiBytes "RIFF".toList) then none
    else if ¬ ((header.drop 8).take 4 = asciiBytes "WAVE".toList) then none
    else
      match findSub header (asciiBytes "fmt ".toList) with
      | none => none
      | some p =>
        if 44 < p + 24 then none
        else
          let d := (header.drop (p + 8)).take 16
          match findSub header (asciiBytes "data".toList) with
          | none => none
          | some _ => some
              { audioFormat := readU16LE d 0
                channels := readU16LE d 2
                sampleRate := readU32LE d 4
                byteRate := readU32LE d 8
                blockAlign := readU16LE d 12
                bitsPerSample := readU16LE d 14 }

/-- Embedding of `TTSManager.synthesize_audio` (src/tts/synthesizer.py
lines 84-166): `netFail` models `requests.RequestException` (raised as
`TTSError`); otherwise the header is parsed and the remaining bytes are the
streamed audio body. -/
def synthesize_audio_model (netFail : Bool) (raw : List Nat) :
    Option (WavFmt × List Nat) :=
  if netFail then none
  else (parseWavHeader raw).map (fun fmt => (fmt, raw.drop 44))

/-- Two's-complement interpretation of a `w`-bit unsigned value
(`numpy` signed dtypes). -/
def toSigned (w : Nat) (u : Nat) : Int :=
  if u < 2 ^ (w - 1) then (u : Int) else (u : Int) - 2 ^ w

/-- `np.frombuffer(chunk, dtype=np.int8)`. -/
def decode8 : List Nat → Option (List Int)
  | [] => some []
  | a :: rest => (decode8 rest).map (fun l => toSigned 8 a :: l)

/-- `np.frombuffer(chunk, dtype=np.int16)` (little endian; an odd byte
count raises `ValueError`, caught as a playback error). -/
def decode16 : List Nat → Option (List Int)
  | [] => some []
  | a :: b :: rest => (decode16 rest).map (fun l => toSigned 16 (a + 256 * b) :: l)
  | _ => none

/-- `np.frombuffer(chunk, dtype=np.int32)` (little endian; a byte count not
divisible by 4 raises `ValueError`). The code also uses this dtype for
24-bit audio. -/
def decode32 : List Nat → Option (List Int)
  | [] => some []
  | a :: b :: c :: d :: rest =>
      (decode32 rest).map (fun l =>
        toSigned 32 (a + 256 * b + 65536 * c + 16777216 * d) :: l)
  | _ => none

/-- Sample decoding according to `format_map` in `TTSManager.play_audio`. -/
def decodeSamples (bits : Nat) (chunk : List Nat) : Option (List Int) :=
  if bits = 8 then decode8 chunk
  else if bits = 16 then decode16 chunk
  else decode32 chunk

/-- Split into groups of exactly `ch` (the reshape `(-1, channels)`; a
length not divisible by `ch` raises `ValueError`). -/
def splitGroups (ch : Nat) (l : List Int) : Option (List (List Int)) :=
  if h : l = [] then some []
  else if hch : ch = 0 then none
  else if hlen : l.length < ch then none
  else
    match splitGroups ch (l.drop ch) with
    | none => none
    | some gs => some (l.take ch :: gs)
termination_by l.length
decreasing_by
  simp only [List.length_drop]
  have h1 : 0 < l.length := List.length_pos.mpr h
  have h2 : 0 < ch := Nat.pos_of_ne_zero hch
  omega

/-- Per-channel averaging `data.reshape(-1, channels).mean(axis=1)` for
multi-channel audio; mono data is used as is. -/
def frameData (bits ch : Nat) (chunk : List Nat) : Option (List ℚ) :=
  match decodeSamples bits chunk with
  | none => none
  | some data =>
    if 1 < ch then
      (splitGroups ch data).map
        (List.map (fun g => (g.sum : ℚ) / (g.length : ℚ)))
    else some (data.map (fun i => (i : ℚ)))

/-- Mean of squares, `np.mean(data.astype(np.float32) ** 2)` (floats
modelled by exact rationals). -/
def meanSq (data : List ℚ) : ℚ :=
  (data.map (fun x => x ^ 2)).sum / (data.length : ℚ)

/-- The per-frame mouth value
`min(0.4 * math.log(1 + rms / 5000.0), 1.0)` from
`TTSManager.play_audio` (src/tts/synthesizer.py line 236). -/
noncomputable def mouthValueOfRms (rms : ℝ) : ℝ :=
  min (0.4 * Real.log (1 + rms / 5000)) 1

/-- Per-frame mouth value of a raw audio chunk: RMS of the (channel-averaged)
samples fed through the logarithmic compression. -/
noncomputable def frameMouth (bits ch : Nat) (chunk : List Nat) : Option ℝ :=
  (frameData bits ch chunk).map
    (fun d => mouthValueOfRms (Real.sqrt ((meanSq d : ℚ) : ℝ)))

/-- The clamp `max(0.0, min(1.0, value))` used by
`VTubeStudioAPI.inject_mouth_value` and `inject_eye_blink`. -/
noncomputable def clamp01 (x : ℝ) : ℝ :=
  max 0 (min 1 x)

/-- The playback loop of `TTSManager.play_audio` (src/tts/synthesizer.py
lines 218-244): each chunk is paired with the outcome of the
`now - last_inject_time >= inject_interval` time gate; empty chunks are
skipped; when the client is authenticated and the gate fires, the frame's
smoothed mouth value (3-slot moving average) is forwarded through
`inject_mouth_value` (clamped). Returns (final history, or `none` when a
frame fails to decode — the raised `TTSError` — and the values forwarded so
far). -/
noncomputable def playLoop (bits ch : Nat) (auth : Bool) :
    List (List Nat × Bool) → List ℝ → List ℝ → Option (List ℝ) × List ℝ
  | [], hist, out => (some hist, out)
  | (chunk, gate) :: rest, hist, out =>
    if chunk = [] then playLoop bits ch auth rest hist out
    else if auth && gate then
      match frameMouth bits ch chunk with
      | none => (none, out)
      | some v =>
        let hist1 := hist.drop 1 ++ [v]
        let sm := hist1.sum / (hist1.length : ℝ)
        playLoop bits ch auth rest hist1 (out ++ [clamp01 sm])
    else playLoop bits ch auth rest hist out

/-- Embedding of `TTSManager.play_audio` (src/tts/synthesizer.py lines
168-257): reject unsupported sample widths, run the playback loop with
volume history `[0.0, 0.0, 0.0]`, and on successful completion forward a
zero mouth value when the client is authenticated. `auth` is the truthiness
of `getattr(vts_api, 'authenticated', False)` for the passed client. -/
noncomputable def play_audio_model (bits ch : Nat) (auth : Bool)
    (chunks : List (List Nat × Bool)) : Option (List ℝ) × List ℝ :=
  if bits = 8 ∨ bits = 16 ∨ bits = 24 ∨ bits = 32 then
    match playLoop bits ch auth chunks [0, 0, 0] [] with
    | (none, out) => (none, out)
    | (some hist, out) =>
        (some hist, if auth then out ++ [clamp01 0] else out)
  else (none, [])

/-- The 4096-byte chunking of the audio body performed by
`audio_chunk_generator`. -/
def chunkBy4096 (l : List Nat) : List (List Nat) :=
  if h : l = [] then []
  else l.take 4096 :: chunkBy4096 (l.drop 4096)
termination_by l.length
decreasing_by
  simp only [List.length_drop]
  have h1 : 0 < l.length := List.length_pos.mpr h
  omega

/-- Embedding of `TTSManager.synthesize_and_play` (src/tts/synthesizer.py
lines 259-298) for non-blank text: synthesis followed by playback. Returns
(`none` = a `TTSError` propagates to the caller, after the completion
callback ran) together with the mouth values forwarded to the avatar
client. `gate i` is the time-gate outcome for the `i`-th chunk. -/
noncomputable def synthesize_and_play_model (netFail : Bool) (raw : List Nat)
    (auth : Bool) (gate : Nat → Bool) : Option Unit × List ℝ :=
  match synthesize_audio_model netFail raw with
  | none => (none, [])
  | some (fmt, body) =>
    match play_audio_model fmt.bitsPerSample fmt.channels auth
        ((chunkBy4096 body).enum.map (fun p => (p.2, gate p.1))) with
    | (none, out) => (none, out)
    | (some _, out) => (some (), out)

lemma clamp01_zero : clamp01 0 = 0 := by
  rw [clamp01]
  norm_num

lemma clamp01_eq_self (x : ℝ) (h0 : 0 ≤ x) (h1 : x ≤ 1) : clamp01 x = x := by
  rw [clamp01, min_eq_right h1, max_eq_right h0]

/-- C2 counterexample: on a network failure (and likewise on a malformed
header) `synthesize_and_play` raises `TTSError`, but no mouth value — in
particular not the claimed zero — is forwarded to the avatar client before
the error propagates. -/
theorem c2_counterexample :
    (synthesize_and_play_model true [] true (fun _ => true)).1 = none ∧
      ¬ ((0 : ℝ) ∈ (synthesize_and_play_model true [] true
          (fun _ => true)).2) := by
  constructor
  · simp [synthesize_and_play_model, synthesize_audio_model]
  · simp [synthesize_and_play_model, synthesize_audio_model]

/-- C2 (amended): a network failure or malformed header makes
`synthesize_and_play` raise `TTSError` and propagate it with no mouth value
forwarded at all; the zero mouth value is forwarded only when playback
completes successfully with an authenticated client, as the last forwarded
value. -/
theorem tts_error_paths_no_mouth_forward :
    (∀ (raw : List Nat) (auth : Bool) (g : Nat → Bool),
        synthesize_and_play_model true raw auth g = (none, [])) ∧
      (∀ (raw : List Nat) (auth : Bool) (g : Nat → Bool),
        parseWavHeader raw = none →
        synthesize_and_play_model false raw auth g = (none, [])) ∧
      (∀ (bits ch : Nat) (chunks : List (List Nat × Bool)) (hist : List ℝ)
          (out : List ℝ),
        play_audio_model bits ch true chunks = (some hist, out) →
        out.getLast? = some 0) := by
  refine ⟨?_, ?_, ?_⟩
  · intro raw auth g
    simp [synthesize_and_play_model, synthesize_audio_model]
  · intro raw auth g h
    simp [synthesize_and_play_model, synthesize_audio_model, h]
  · intro bits ch chunks hist out h
    by_cases hb : bits = 8 ∨ bits = 16 ∨ bits = 24 ∨ bits = 32
    · rw [play_audio_model, if_pos hb] at h
      obtain ⟨r, o2, hr⟩ : ∃ r o2,
          playLoop bits ch true chunks [0, 0, 0] [] = (r, o2) := ⟨_, _, rfl⟩
      rw [hr] at h
      cases r with
      | none => simp at h
      | some hh =>
        have hout : out = o2 ++ [clamp01 0] := by
          have h2 := congrArg Prod.snd h
          simpa using h2.symm
        rw [hout, clamp01_zero]
        simp
    · rw [play_audio_model, if_neg hb] at h
      simp at h

/-- C2 witness: concrete instances — a failing request forwards nothing; an
empty response has no parsable header and forwards nothing; an empty
successful playback with an authenticated client forwards exactly the final
zero. -/
theorem tts_error_paths_no_mouth_forward_witness :
    (synthesize_and_play_model true [] true (fun _ => false) = (none, [])) ∧
      (parseWavHeader [] = none ∧
        synthesize_and_play_model false [] true (fun _ => false)
          = (none, [])) ∧
      (play_audio_model 16 1 true [] = (some [0, 0, 0], [clamp01 0]) ∧
        ([clamp01 0] : List ℝ).getLast? = some 0) :=
  ⟨tts_error_paths_no_mouth_forward.1 [] true (fun _ => false),
    ⟨by rfl,
      tts_error_paths_no_mouth_forward.2.1 [] true (fun _ => false) (by rfl)⟩,
    ⟨by simp [play_audio_model, playLoop],
      tts_error_paths_no_mouth_forward.2.2 16 1 [] [0, 0, 0] [clamp01 0]
        (by simp [play_audio_model, playLoop])⟩⟩

lemma frameMouth_zero : frameMouth 16 1 ([0, 0, 0, 0] : List Nat) = some 0 := by
  have hdata : frameData 16 1 [0, 0, 0, 0] = some [0, 0] := by
    simp [frameData, decodeSamples, decode16, toSigned]
  rw [frameMouth, hdata]
  have hms : meanSq [(0 : ℚ), 0] = 0 := by
    simp [meanSq]
  simp [hms, mouthValueOfRms, Real.log_one]

lemma log_ratio_lower : (2 : ℝ) ≤ Real.log (1 + 32767 / 5000) := by
  have hx : (1 + 32767 / 5000 : ℝ) = 37767 / 5000 := by norm_num
  rw [hx, Real.le_log_iff_exp_le (by norm_num)]
  have he : Real.exp 2 = Real.exp 1 * Real.exp 1 := by
    rw [← Real.exp_add]
    norm_num
  have hlt : Real.exp 1 < 2.7182818286 := Real.exp_one_lt_d9
  have hp : (0 : ℝ) < Real.exp 1 := Real.exp_pos 1
  rw [he]
  nlinarith [hlt, hp]

lemma log_ratio_upper : Real.log (1 + 32767 / 5000) < 2.5 := by
  have hx : (1 + 32767 / 5000 : ℝ) = 37767 / 5000 := by norm_num
  rw [hx, Real.log_lt_iff_lt_exp (by norm_num)]
  have he : Real.exp (2.5 : ℝ) = Real.exp 1 * Real.exp 1 * Real.exp 0.5 := by
    rw [← Real.exp_add, ← Real.exp_add]
    norm_num
  have h1 : (2.7182818283 : ℝ) < Real.exp 1 := Real.exp_one_gt_d9
  have h5 : (1.5 : ℝ) ≤ Real.exp 0.5 := by
    have h := Real.add_one_le_exp (0.5 : ℝ)
    linarith
  have hp1 : (0 : ℝ) < Real.exp 1 := Real.exp_pos 1
  have hp5 : (0 : ℝ) < Real.exp 0.5 := Real.exp_pos _
  rw [he]
  nlinarith [h1, h5, hp1, hp5]

lemma fullScaleMouth_bounds :
    (0.8 : ℝ) ≤ 0.4 * Real.log (1 + 32767 / 5000) ∧
      0.4 * Real.log (1 + 32767 / 5000) < 1 := by
  constructor
  · have h := log_ratio_lower
    linarith
  · have h := log_ratio_upper
    linarith

lemma frameMouth_full : frameMouth 16 1 ([255, 127, 255, 127] : List Nat)
    = some (0.4 * Real.log (1 + 32767 / 5000)) := by
  have hdata : frameData 16 1 [255, 127, 255, 127] = some [32767, 32767] := by
    simp [frameData, decodeSamples, decode16, toSigned]
  have hms : meanSq [(32767 : ℚ), 32767] = 32767 ^ 2 := by
    rw [meanSq]
    norm_num
  have hsq : Real.sqrt ((meanSq [(32767 : ℚ), 32767] : ℚ) : ℝ) = 32767 := by
    rw [hms]
    push_cast
    exact Real.sqrt_sq (by norm_num)
  rw [frameMouth, hdata]
  show some (mouthValueOfRms
      (Real.sqrt ((meanSq [(32767 : ℚ), 32767] : ℚ) : ℝ))) = _
  rw [hsq, mouthValueOfRms]
  congr 1
  exact min_eq_left (le_of_lt fullScaleMouth_bounds.2)

/-- C3: with a 16-bit mono header, a frame of all-zero samples forwards a
mouth value of exactly 0.0; a frame at full-scale amplitude (samples
32767) yields the per-frame value `min(0.4 * log(1 + rms/5000), 1.0)`,
which stays strictly below the 1.0 clamp while exceeding 0.8, and after
three such gated frames the smoothed (3-slot moving average) forwarded
value reaches that per-frame value, followed by the final zero. -/
theorem c3_mouth_values :
    ∃ v : ℝ,
      v = 0.4 * Real.log (1 + 32767 / 5000) ∧
      min (0.4 * Real.log (1 + 32767 / 5000)) 1 = v ∧
      frameMouth 16 1 ([0, 0, 0, 0] : List Nat) = some 0 ∧
      play_audio_model 16 1 true [([0, 0, 0, 0], true)]
        = (some [0, 0, 0], [0, 0]) ∧
      frameMouth 16 1 ([255, 127, 255, 127] : List Nat) = some v ∧
      play_audio_model 16 1 true
          [([255, 127, 255, 127], true), ([255, 127, 255, 127], true),
            ([255, 127, 255, 127], true)]
        = (some [v, v, v], [v / 3, 2 * v / 3, v, 0]) ∧
      0.8 ≤ v ∧ v < 1 := by
  refine ⟨0.4 * Real.log (1 + 32767 / 5000), rfl, ?_, frameMouth_zero, ?_,
    frameMouth_full, ?_, fullScaleMouth_bounds.1, fullScaleMouth_bounds.2⟩
  · exact min_eq_left (le_of_lt fullScaleMouth_bounds.2)
  · rw [play_audio_model]
    rw [if_pos (by norm_num)]
    have hloop : playLoop 16 1 true [([0, 0, 0, 0], true)] [0, 0, 0] []
        = (some [0, 0, 0], [0]) := by
      rw [playLoop]
      rw [if_neg (by simp)]
      simp only [Bool.and_self, if_true]
      rw [frameMouth_zero]
      norm_num [playLoop, clamp01_zero]
    rw [hloop]
    rw [clamp01_zero]
    rfl
  · set v := 0.4 * Real.log (1 + 32767 / 5000) with hv
    have hv0 : (0 : ℝ) ≤ v := le_trans (by norm_num) fullScaleMouth_bounds.1
    have hv1 : v ≤ 1 := le_of_lt fullScaleMouth_bounds.2
    rw [play_audio_model]
    rw [if_pos (by norm_num)]
    have hstep : ∀ (rest : List (List Nat × Bool)) (hist out : List ℝ),
        playLoop 16 1 true (([255, 127, 255, 127], true) :: rest) hist out
          = playLoop 16 1 true rest (hist.drop 1 ++ [v])
              (out ++ [clamp01 ((hist.drop 1 ++ [v]).sum
                / ((hist.drop 1 ++ [v]).length : ℝ))]) := by
      intro rest hist out
      rw [playLoop]
      rw [if_neg (by simp)]
      simp only [Bool.and_self, if_true]
      rw [frameMouth_full, ← hv]
    rw [hstep, hstep, hstep]
    rw [playLoop]
    have e1 : (([0, 0, 0] : List ℝ).drop 1 ++ [v]) = [0, 0, v] := by norm_num
    have e2 : (([0, 0, v] : List ℝ).drop 1 ++ [v]) = [0, v, v] := by norm_num
    have e3 : (([0, v, v] : List ℝ).drop 1 ++ [v]) = [v, v, v] := by norm_num
    rw [e1, e2, e3]
    have s1 : (([0, 0, v] : List ℝ).sum / (([0, 0, v] : List ℝ).length : ℝ))
        = v / 3 := by
      simp
    have s2 : (([0, v, v] : List ℝ).sum / (([0, v, v] : List ℝ).length : ℝ))
        = 2 * v / 3 := by
      simp
      ring
    have s3 : (([v, v, v] : List ℝ).sum / (([v, v, v] : List ℝ).length : ℝ))
        = v := by
      simp
      ring
    rw [s1, s2, s3]
    rw [clamp01_eq_self (v / 3) (by linarith) (by linarith)]
    rw [clamp01_eq_self (2 * v / 3) (by linarith) (by linarith)]
    rw [clamp01_eq_self v hv0 hv1]
    rw [clamp01_zero]
    simp

/- ===== Eye blink: inject_eye_blink and _blink_sequence ===== -/

/-- Embedding of `VTubeStudioAPI.inject_eye_blink(left, right)`
(src/vts/api_helper.py lines 676-693): both inputs are clamped to [0, 1]
and the protocol submission inverts them, `EyeOpenLeft = 1.0 - left` and
`EyeOpenRight = 1.0 - right`. The value is the `parameterValues` list
submitted in the `InjectParameterDataRequest`. -/
noncomputable def inject_eye_blink_values (left right : ℝ) :
    List (List Char × ℝ) :=
  [("EyeOpenLeft".toList, 1 - clamp01 left),
    ("EyeOpenRight".toList, 1 - clamp01 right)]

/-- The three (left, right) inputs of `AnimationController._blink_sequence`
(src/vts/animation.py lines 100-115), commented there as close the eyes,
open slightly, open fully. -/
noncomputable def blink_sequence_inputs : List (ℝ × ℝ) :=
  [(0, 0), (0.3, 0.3), (1, 1)]

/-- The protocol submissions produced by the three blink steps. -/
noncomputable def blink_sequence_submissions : List (List (List Char × ℝ)) :=
  blink_sequence_inputs.map (fun p => inject_eye_blink_values p.1 p.2)

/-- C9 (code bug): the blink sequence submits `EyeOpen` values 1.0, then
0.7, then 0.0. Under the protocol convention that 1.0 means fully open,
the avatar's eyes are driven fully open, then mostly open, then fully
closed — the step commented "open fully" submits the minimum openness, so
every blink leaves the eyes closed instead of the claimed
closed → slightly open → fully open. -/
theorem c9_blink_submissions :
    blink_sequence_submissions
      = [[("EyeOpenLeft".toList, 1), ("EyeOpenRight".toList, 1)],
          [("EyeOpenLeft".toList, 0.7), ("EyeOpenRight".toList, 0.7)],
          [("EyeOpenLeft".toList, 0), ("EyeOpenRight".toList, 0)]] := by
  rw [blink_sequence_submissions, blink_sequence_inputs]
  simp only [List.map_cons, List.map_nil, inject_eye_blink_values]
  rw [clamp01_zero, clamp01_eq_self 0.3 (by norm_num) (by norm_num),
    clamp01_eq_self 1 (by norm_num) (by norm_num)]
  norm_num

end AIVTuber
